import Mathlib

/-!
# go-playground: `cmd/playground/main.go`

A shallow embedding of the server entry point (`start`, `startHttpServer`) of the
playground and of the collaborators it wires together.

* Part 1: Go values used by the entry point (errors, `%q` quoting of `fmt.Errorf`).
* Part 2: the main goroutine of `start` as a function from the outcomes of its external
  calls to the sequence of calls it makes and the error it returns.
* Part 3: `startHttpServer` and the tail of `start` as an interleaving of the main goroutine
  with the shutdown goroutine.
* Part 4: collaborators that live in other packages of the repository, modelled from the
  specification.

Go strings are modelled by Lean strings, that is, by valid UTF-8 text.
-/

namespace GoPlayground

/-! ## Part 1: Go values -/

/-- A non-nil Go `error` value.  Errors are compared by identity in `main.go`
(`err != http.ErrServerClosed`, `err == context.Canceled`), so the package-level sentinels
are constructors of their own; `errorf` is the fresh value returned by `fmt.Errorf`, and
`other` is any error value of a collaborator, told apart by `id`. -/
inductive GoError where
  | errServerClosed
  | contextCanceled
  | deadlineExceeded
  | errorf (msg : String)
  | other (id : Nat) (msg : String)
  deriving DecidableEq, Repr

/-- The `Error()` method: the text that `%s` prints for an error. -/
def GoError.Error : GoError → String
  | .errServerClosed => "http: Server closed"
  | .contextCanceled => "context canceled"
  | .deadlineExceeded => "context deadline exceeded"
  | .errorf msg => msg
  | .other _ msg => msg

/-- The digits of `strconv`: `const lowerhex = "0123456789abcdef"`. -/
def lowerhex : List Char := "0123456789abcdef".toList

/-- The digit `lowerhex[n & 0xF]`. -/
def hexDigit (n : Nat) : Char := lowerhex.getD (n % 16) '0'

/-- The loop `for s := top; s >= 0; s -= 4 { buf = append(buf, lowerhex[r>>uint(s)&0xF]) }`
of `strconv.appendEscapedRune`, for `count` digits. -/
def hexDigits (r : Nat) : Nat → List Char
  | 0 => []
  | count + 1 => hexDigit (r / 16 ^ count) :: hexDigits r count

/-- Function `strconv.IsPrint`: the fast path for Latin-1 is in the code of the function, the
tables it consults above U+00FF are the parameter `tbl`. -/
def strconvIsPrint (tbl : Char → Bool) (r : Char) : Bool :=
  if r.toNat ≤ 0xFF then
    if 0x20 ≤ r.toNat ∧ r.toNat ≤ 0x7E then true
    else if 0xA1 ≤ r.toNat ∧ r.toNat ≤ 0xFF then r.toNat != 0xAD
    else false
  else tbl r

/-- Function `strconv.appendEscapedRune` with `quote = '"'`, `ASCIIonly = false` and
`graphicOnly = false`, which is how `strconv.Quote` calls it. -/
def appendEscapedRune (tbl : Char → Bool) (r : Char) : List Char :=
  if r = '"' ∨ r = '\\' then ['\\', r]
  else if strconvIsPrint tbl r then [r]
  else if r.toNat = 0x07 then ['\\', 'a']
  else if r.toNat = 0x08 then ['\\', 'b']
  else if r.toNat = 0x0C then ['\\', 'f']
  else if r.toNat = 0x0A then ['\\', 'n']
  else if r.toNat = 0x0D then ['\\', 'r']
  else if r.toNat = 0x09 then ['\\', 't']
  else if r.toNat = 0x0B then ['\\', 'v']
  else if r.toNat < 0x20 ∨ r.toNat = 0x7F then '\\' :: 'x' :: hexDigits r.toNat 2
  else if r.toNat < 0x10000 then '\\' :: 'u' :: hexDigits r.toNat 4
  else '\\' :: 'U' :: hexDigits r.toNat 8

/-- Function `strconv.Quote`, which is what the verb `%q` prints for a string operand. -/
def strconvQuote (tbl : Char → Bool) (s : String) : String :=
  String.mk ('"' :: (s.toList.flatMap (appendEscapedRune tbl)) ++ ['"'])

/-- A rune that `%q` prints as itself: printable, and neither the quote nor the backslash. -/
def plainRune (tbl : Char → Bool) (r : Char) : Bool :=
  strconvIsPrint tbl r && r != '"' && r != '\\'

/-- A string all of whose runes print as themselves under `%q`. -/
def plainString (tbl : Char → Bool) (s : String) : Bool :=
  s.toList.all (plainRune tbl)

/-! ## Part 2: the main goroutine of `start` -/

/-- Variable `Version` of package `main`. -/
def Version : String := "testing"

/-- The fields of `config.BuildConfig` that `start` reads. -/
structure BuildConfig where
  buildDir : String
  packagesFile : String
  cleanupInterval : Nat
  bypassEnvVarsList : List String
  deriving DecidableEq, Repr

/-- The fields of `config.PlaygroundConfig` that `start` reads. -/
structure PlaygroundConfig where
  playgroundURL : String
  goTipPlaygroundURL : String
  connectTimeout : Nat
  deriving DecidableEq, Repr

/-- The fields of `config.ServicesConfig` that `start` reads. -/
structure ServicesConfig where
  googleAnalyticsID : String
  deriving DecidableEq, Repr

/-- The fields of `config.HTTPConfig` that `start` reads. -/
structure HTTPConfig where
  addr : String
  assetsDir : String
  deriving DecidableEq, Repr

/-- The configuration `*config.Config` handed to `start`. -/
structure Config where
  http : HTTPConfig
  playground : PlaygroundConfig
  build : BuildConfig
  services : ServicesConfig
  deriving DecidableEq, Repr

/-- The value of `analyzer.ReadPackagesFile`: a handle on the loaded package index. -/
structure Packages where
  id : Nat
  deriving DecidableEq, Repr

/-- The value of `storage.NewLocalStorage`: a handle on the artifact store. -/
structure LocalStorage where
  id : Nat
  deriving DecidableEq, Repr

/-- Type `osutil.EnvironmentVariables`, a Go map from variable name to value, as the list
of its key/value pairs. -/
abbrev EnvironmentVariables := List (String × String)

/-- Type `compiler.BuildEnvironmentConfig` as `start` fills it. -/
structure BuildEnvironmentConfig where
  includedEnvironmentVariables : EnvironmentVariables
  deriving DecidableEq, Repr

/-- The value of `compiler.NewBuildService(zap.S(), buildCfg, store)`: the service keeps the
configuration and the store it was given. -/
structure BuildService where
  config : BuildEnvironmentConfig
  storage : LocalStorage
  deriving DecidableEq, Repr

/-- Type `langserver.TemplateArguments` as `start` fills it. -/
structure TemplateArguments where
  googleTagID : String
  deriving DecidableEq, Repr

/-- The `*http.Server` that `start` builds; the timeouts are in seconds. -/
structure Server where
  addr : String
  readTimeout : Nat
  writeTimeout : Nat
  idleTimeout : Nat
  deriving DecidableEq, Repr

/-- The two handlers that `start` mounts for the web UI. -/
inductive Handler where
  | index
  | spa
  deriving DecidableEq, Repr

/-- The calls that the main goroutine of `start` makes on its collaborators, in the order
of the source. -/
inductive Event where
  | logStarting (version : String) (cfg : Config)
  | analyzerSetRoot (goRoot : String)
  | readPackagesFile (path : String)
  | newLocalStorage (buildDir : String)
  | getApplicationContext
  | goStartCleaner (store : LocalStorage) (interval : Nat)
  | goplayNewClient (url : String) (connectTimeout : Nat)
  | selectEnvironmentVariables (keys : List String)
  | logLoadedVars (vars : EnvironmentVariables)
  | newBuildService (cfg : BuildEnvironmentConfig) (store : LocalStorage)
  | muxNewRouter
  | langserverNewMount (version : String) (packages : Packages) (svc : BuildService)
  | validateGTag (id : String)
  | logInvalidGTag (id : String) (err : GoError)
  | newTemplateFileServer (path : String) (tplVars : TemplateArguments)
  | newSpaFileServer (assetsDir : String) (tplVars : TemplateArguments)
  | route (pattern : String) (handler : Handler)
  | goShutdownWatcher
  | wgAdd (delta : Int)
  | logListening (addr : String)
  | listenAndServe (server : Server)
  | wgWait
  deriving DecidableEq, Repr

/-- What a run of a function of `main.go` did on the main goroutine: the calls it made and
the error it returned (`none` is `nil`). -/
structure Outcome where
  trace : List Event
  result : Option GoError
  deriving DecidableEq, Repr

/-- The outcomes of the external calls of one run of `start`: what the collaborators
return, and the constants of other packages that `start` reads. -/
structure World where
  isPrintTable : Char → Bool
  readPackagesFile : String → Except GoError Packages
  newLocalStorage : String → Except GoError LocalStorage
  selectEnvironmentVariables : List String → EnvironmentVariables
  validateGTag : String → Option GoError
  filepathJoin : String → String → String
  indexFileName : String
  listenAndServe : Server → Option GoError

/-- Function `startHttpServer`, on the main goroutine: the goroutine that waits for the
application context is started, the wait-group is incremented, and `ListenAndServe` blocks
until it returns `listen`. -/
def startHttpServer (tbl : Char → Bool) (server : Server) (listen : Option GoError) :
    Outcome :=
  let trace := [Event.goShutdownWatcher, Event.wgAdd 1, Event.logListening server.addr,
    Event.listenAndServe server]
  match listen with
  | some err =>
    if err ≠ GoError.errServerClosed then
      ⟨trace, some (GoError.errorf
        ("cannot start server on " ++ strconvQuote tbl server.addr ++ ": " ++ err.Error))⟩
    else ⟨trace, none⟩
  | none => ⟨trace, none⟩

/-- The template arguments of `start`: the analytics tag of the configuration, dropped when
it is not empty and `webutil.ValidateGTag` rejects it. -/
def tplVarsOf (w : World) (cfg : Config) : TemplateArguments × List Event :=
  let tplVars : TemplateArguments := ⟨cfg.services.googleAnalyticsID⟩
  if tplVars.googleTagID ≠ "" then
    match w.validateGTag tplVars.googleTagID with
    | some err =>
      (⟨""⟩, [Event.validateGTag tplVars.googleTagID,
        Event.logInvalidGTag tplVars.googleTagID err])
    | none => (tplVars, [Event.validateGTag tplVars.googleTagID])
  else (tplVars, [])

/-- Function `start`, on the main goroutine. -/
def start (w : World) (goRoot : String) (cfg : Config) : Outcome :=
  let t0 := [Event.logStarting Version cfg, Event.analyzerSetRoot goRoot,
    Event.readPackagesFile cfg.build.packagesFile]
  match w.readPackagesFile cfg.build.packagesFile with
  | .error err =>
    ⟨t0, some (GoError.errorf ("failed to read packages file "
      ++ strconvQuote w.isPrintTable cfg.build.packagesFile ++ ": " ++ err.Error))⟩
  | .ok packages =>
    let t1 := t0 ++ [Event.newLocalStorage cfg.build.buildDir]
    match w.newLocalStorage cfg.build.buildDir with
    | .error err => ⟨t1, some err⟩
    | .ok store =>
      let buildCfg : BuildEnvironmentConfig :=
        ⟨w.selectEnvironmentVariables cfg.build.bypassEnvVarsList⟩
      let buildSvc : BuildService := ⟨buildCfg, store⟩
      let t2 := t1 ++ [Event.getApplicationContext,
        Event.goStartCleaner store cfg.build.cleanupInterval,
        Event.goplayNewClient cfg.playground.playgroundURL cfg.playground.connectTimeout,
        Event.goplayNewClient cfg.playground.goTipPlaygroundURL cfg.playground.connectTimeout,
        Event.selectEnvironmentVariables cfg.build.bypassEnvVarsList,
        Event.logLoadedVars buildCfg.includedEnvironmentVariables,
        Event.newBuildService buildCfg store,
        Event.muxNewRouter,
        Event.langserverNewMount Version packages buildSvc]
      let tpl := tplVarsOf w cfg
      let assetsDir := cfg.http.assetsDir
      let t3 := t2 ++ tpl.2 ++ [
        Event.newTemplateFileServer (w.filepathJoin assetsDir w.indexFileName) tpl.1,
        Event.newSpaFileServer assetsDir tpl.1,
        Event.route "/" Handler.index,
        Event.route "/snippet/\x7bsnippetID:[A-Za-z0-9_-]+\x7d" Handler.index,
        Event.route "/" Handler.spa]
      let server : Server := ⟨cfg.http.addr, 5, 10, 15⟩
      let srv := startHttpServer w.isPrintTable server (w.listenAndServe server)
      match srv.result with
      | some err => ⟨t3 ++ srv.trace, some err⟩
      | none => ⟨t3 ++ srv.trace ++ [Event.wgWait], none⟩

/-- The calls of `start` up to the creation of the API, once the packages file is read and
the store is created. -/
def setupTrace (w : World) (goRoot : String) (cfg : Config) (pk : Packages)
    (st : LocalStorage) : List Event :=
  [Event.logStarting Version cfg, Event.analyzerSetRoot goRoot,
    Event.readPackagesFile cfg.build.packagesFile,
    Event.newLocalStorage cfg.build.buildDir,
    Event.getApplicationContext,
    Event.goStartCleaner st cfg.build.cleanupInterval,
    Event.goplayNewClient cfg.playground.playgroundURL cfg.playground.connectTimeout,
    Event.goplayNewClient cfg.playground.goTipPlaygroundURL cfg.playground.connectTimeout,
    Event.selectEnvironmentVariables cfg.build.bypassEnvVarsList,
    Event.logLoadedVars (w.selectEnvironmentVariables cfg.build.bypassEnvVarsList),
    Event.newBuildService ⟨w.selectEnvironmentVariables cfg.build.bypassEnvVarsList⟩ st,
    Event.muxNewRouter,
    Event.langserverNewMount Version pk
      ⟨⟨w.selectEnvironmentVariables cfg.build.bypassEnvVarsList⟩, st⟩]

/-- The calls of `start` from the file servers to `ListenAndServe`. -/
def serveTrace (w : World) (cfg : Config) : List Event :=
  [Event.newTemplateFileServer (w.filepathJoin cfg.http.assetsDir w.indexFileName)
      (tplVarsOf w cfg).1,
    Event.newSpaFileServer cfg.http.assetsDir (tplVarsOf w cfg).1,
    Event.route "/" Handler.index,
    Event.route "/snippet/\x7bsnippetID:[A-Za-z0-9_-]+\x7d" Handler.index,
    Event.route "/" Handler.spa,
    Event.goShutdownWatcher, Event.wgAdd 1, Event.logListening cfg.http.addr,
    Event.listenAndServe ⟨cfg.http.addr, 5, 10, 15⟩]

/-! ### Observations on the calls of a run -/

/-- The allow-lists with which a run called `osutil.SelectEnvironmentVariables`, in order. -/
def selectCalls (t : List Event) : List (List String) :=
  t.filterMap fun ev =>
    match ev with
    | Event.selectEnvironmentVariables keys => some keys
    | _ => none

/-- The environment specification that a call carries, when it carries one. -/
def Event.envSpec? : Event → Option EnvironmentVariables
  | Event.logLoadedVars vars => some vars
  | Event.newBuildService cfg _ => some cfg.includedEnvironmentVariables
  | Event.langserverNewMount _ _ svc => some svc.config.includedEnvironmentVariables
  | _ => none

/-- The call starts the cleaner goroutine of the store. -/
def Event.startsCleaner : Event → Bool
  | Event.goStartCleaner _ _ => true
  | _ => false

/-- The call creates the build service. -/
def Event.createsBuildService : Event → Bool
  | Event.newBuildService _ _ => true
  | _ => false

/-- The call makes the HTTP server listen. -/
def Event.listens : Event → Bool
  | Event.listenAndServe _ => true
  | _ => false

/-- The analytics tag of the template arguments handed to a file server. -/
def Event.templateTag? : Event → Option String
  | Event.newTemplateFileServer _ tplVars => some tplVars.googleTagID
  | Event.newSpaFileServer _ tplVars => some tplVars.googleTagID
  | _ => none

/-- A run world in which the packages file cannot be read. -/
def worldNoPackages : World where
  isPrintTable := fun _ => true
  readPackagesFile := fun _ => Except.error (GoError.other 1 "open packages.json: no such file or directory")
  newLocalStorage := fun _ => Except.ok ⟨1⟩
  selectEnvironmentVariables := fun _ => []
  validateGTag := fun _ => none
  filepathJoin := fun dir file => dir ++ "/" ++ file
  indexFileName := "index.html"
  listenAndServe := fun _ => some GoError.errServerClosed

/-- A run world in which every collaborator succeeds, the tag `bad` is rejected, and the
server is shut down in the end. -/
def worldOk : World where
  isPrintTable := fun _ => true
  readPackagesFile := fun _ => Except.ok ⟨7⟩
  newLocalStorage := fun _ => Except.ok ⟨1⟩
  selectEnvironmentVariables := fun keys => keys.map fun k => (k, "v")
  validateGTag := fun id => if id = "bad" then some (GoError.other 2 "invalid GTag") else none
  filepathJoin := fun dir file => dir ++ "/" ++ file
  indexFileName := "index.html"
  listenAndServe := fun _ => some GoError.errServerClosed

/-- A configuration with the defaults of the playground. -/
def exampleConfig : Config where
  http := ⟨":8000", "public"⟩
  playground := ⟨"https://play.golang.org", "https://gotipplay.golang.org", 15⟩
  build := ⟨"/tmp/builds", "packages.json", 600, ["GOROOT", "GOPATH"]⟩
  services := ⟨"bad"⟩

/-- A run world in which the packages file of `windowsConfig` cannot be read. -/
def worldNoPackagesWindows : World where
  isPrintTable := fun _ => true
  readPackagesFile := fun _ => Except.error (GoError.other 1 "open C:\\pkgs.json: file not found")
  newLocalStorage := fun _ => Except.ok ⟨1⟩
  selectEnvironmentVariables := fun _ => []
  validateGTag := fun _ => none
  filepathJoin := fun dir file => dir ++ "\\" ++ file
  indexFileName := "index.html"
  listenAndServe := fun _ => some GoError.errServerClosed

/-- A configuration with a packages file given by a Windows path. -/
def windowsConfig : Config where
  http := ⟨":8000", "public"⟩
  playground := ⟨"https://play.golang.org", "https://gotipplay.golang.org", 15⟩
  build := ⟨"C:\\builds", "C:\\pkgs.json", 600, []⟩
  services := ⟨""⟩

/-! ## Part 3: `startHttpServer` and the tail of `start` as two goroutines

The main goroutine runs `startHttpServer` and then the last statements of `start`; the
goroutine started by `startHttpServer` (the watcher) waits for the application context and
shuts the server down.  A run is a sequence of atomic steps of the two goroutines, of the
two blocking calls returning (`ListenAndServe`, `Shutdown`), of the application context
being cancelled and of the clock advancing by one second.  The operations of `sync` and of
`context` are sequentially consistent, so every execution is such a sequence. -/

/-- A `context.Context`, as far as `main.go` looks at it: its deadline and the value of
`Err()`, which is nil as long as the `Done` channel is open. -/
structure Context where
  deadline : Option Nat
  err : Option GoError
  deriving DecidableEq, Repr

/-- The context is cancelled (by its cancel function or by a parent): `Err()` becomes
`context.Canceled` unless the context is done already. -/
def Context.cancel (c : Context) : Context :=
  { c with err := c.err.orElse fun _ => some GoError.contextCanceled }

/-- The clock reaches `now`: `Err()` becomes `context.DeadlineExceeded` when the deadline
has passed, unless the context is done already. -/
def Context.expire (c : Context) (now : Nat) : Context :=
  match c.deadline with
  | some d =>
    if d ≤ now then { c with err := c.err.orElse fun _ => some GoError.deadlineExceeded }
    else c
  | none => c

/-- Function `context.WithTimeout(parent, timeout)` called at time `now`, after the package
documentation: the deadline of the result is `now + timeout`, or the deadline of the parent
when that is earlier, and the `Done` channel of the result is closed when the deadline
expires, when the returned cancel function is called, or when the `Done` channel of the
parent is closed, whichever happens first.  A parent that is done already makes the result
done on return, with the error of the parent. -/
def contextWithTimeout (parent : Context) (now timeout : Nat) : Context :=
  let d := match parent.deadline with
    | some pd => min pd (now + timeout)
    | none => now + timeout
  { deadline := some d, err := parent.err }

/-- Where the main goroutine stands in `startHttpServer` and in the tail of `start`. -/
inductive MainPc where
  | spawn
  | add
  | listen
  | serving
  | wait
  | returned (r : Option GoError)
  deriving DecidableEq, Repr

/-- Where the goroutine started by `startHttpServer` stands. -/
inductive WatcherPc where
  | idle
  | awaitDone
  | withTimeout
  | keepAlives
  | callShutdown
  | shuttingDown
  | deferDone
  | deferCancel
  | exited
  deriving DecidableEq, Repr

/-- What the two goroutines did, in the order in which it happened. -/
inductive SrvEvent where
  | goWatcher
  | wgAdd
  | listenCalled
  | listenReturned (e : Option GoError)
  | startReturned (r : Option GoError)
  | appCancelled
  | doneReceived
  | withTimeout (ctx : Context)
  | keepAlivesDisabled
  | shutdownCalled (now : Nat) (ctx : Context)
  | shutdownReturned (now : Nat) (e : Option GoError)
  | logShutdownError (e : GoError)
  | wgDone
  | cancelCalled
  deriving DecidableEq, Repr

/-- The state shared by the two goroutines. -/
structure SrvState where
  now : Nat
  appCtx : Context
  shutdownCtx : Option Context
  wg : Int
  panicked : Bool
  inShutdown : Bool
  main : MainPc
  watcher : WatcherPc
  log : List SrvEvent
  deriving DecidableEq, Repr

/-- The steps of a run. -/
inductive Action where
  | mainStep
  | listenReturns (e : Option GoError)
  | watcherStep
  | shutdownReturns (e : Option GoError)
  | cancelApp
  | tick
  deriving DecidableEq, Repr

/-- The state on entry to `startHttpServer`: the wait-group is fresh, the application
context is not cancelled. -/
def SrvState.init : SrvState where
  now := 0
  appCtx := ⟨none, none⟩
  shutdownCtx := none
  wg := 0
  panicked := false
  inShutdown := false
  main := MainPc.spawn
  watcher := WatcherPc.idle
  log := []

/-- The next statement of the main goroutine. -/
def mainStep (s : SrvState) : Option SrvState :=
  match s.main with
  | MainPc.spawn =>
    some { s with main := MainPc.add, watcher := WatcherPc.awaitDone,
                  log := s.log ++ [SrvEvent.goWatcher] }
  | MainPc.add =>
    some { s with main := MainPc.listen, wg := s.wg + 1, log := s.log ++ [SrvEvent.wgAdd] }
  | MainPc.listen =>
    some { s with main := MainPc.serving, log := s.log ++ [SrvEvent.listenCalled] }
  | MainPc.wait =>
    if s.wg = 0 then
      some { s with main := MainPc.returned none,
                    log := s.log ++ [SrvEvent.startReturned none] }
    else none
  | MainPc.serving => none
  | MainPc.returned _ => none

/-- Method `ListenAndServe` returns `e` to the main goroutine; `http.ErrServerClosed` is
returned only once `Shutdown` has been called.  The result of `startHttpServer` is then
computed as in part 2, and `start` returns it when it is an error. -/
def listenReturns (tbl : Char → Bool) (server : Server) (s : SrvState)
    (e : Option GoError) : Option SrvState :=
  match s.main with
  | MainPc.serving =>
    if e = some GoError.errServerClosed ∧ s.inShutdown = false then none
    else
      match (startHttpServer tbl server e).result with
      | some err =>
        some { s with main := MainPc.returned (some err),
                      log := s.log ++ [SrvEvent.listenReturned e,
                        SrvEvent.startReturned (some err)] }
      | none =>
        some { s with main := MainPc.wait, log := s.log ++ [SrvEvent.listenReturned e] }
  | _ => none

/-- The next statement of the watcher goroutine.  The receive from `ctx.Done()` is enabled
once the application context is done; the deferred `wg.Done()` panics when it makes the
counter negative. -/
def watcherStep (s : SrvState) : Option SrvState :=
  match s.watcher with
  | WatcherPc.awaitDone =>
    if s.appCtx.err.isSome then
      some { s with watcher := WatcherPc.withTimeout,
                    log := s.log ++ [SrvEvent.doneReceived] }
    else none
  | WatcherPc.withTimeout =>
    some { s with watcher := WatcherPc.keepAlives,
                  shutdownCtx := some (contextWithTimeout s.appCtx s.now 30),
                  log := s.log ++ [SrvEvent.withTimeout (contextWithTimeout s.appCtx s.now 30)] }
  | WatcherPc.keepAlives =>
    some { s with watcher := WatcherPc.callShutdown,
                  log := s.log ++ [SrvEvent.keepAlivesDisabled] }
  | WatcherPc.callShutdown =>
    match s.shutdownCtx with
    | some c =>
      some { s with watcher := WatcherPc.shuttingDown, inShutdown := true,
                    log := s.log ++ [SrvEvent.shutdownCalled s.now c] }
    | none => none
  | WatcherPc.deferDone =>
    some { s with watcher := WatcherPc.deferCancel, wg := s.wg - 1,
                  panicked := decide (s.wg - 1 < 0), log := s.log ++ [SrvEvent.wgDone] }
  | WatcherPc.deferCancel =>
    some { s with watcher := WatcherPc.exited,
                  shutdownCtx := s.shutdownCtx.map Context.cancel,
                  log := s.log ++ [SrvEvent.cancelCalled] }
  | WatcherPc.idle => none
  | WatcherPc.shuttingDown => none
  | WatcherPc.exited => none

/-- Method `Shutdown` returns `e` to the watcher goroutine: nil, the error of closing the
listeners, or `ctx.Err()` of the context it was given, which needs that context to be
done.  The watcher logs `e` unless it is nil or `context.Canceled`. -/
def shutdownReturns (s : SrvState) (e : Option GoError) : Option SrvState :=
  match s.watcher with
  | WatcherPc.shuttingDown =>
    if (e = some GoError.contextCanceled ∨ e = some GoError.deadlineExceeded) ∧
        (s.shutdownCtx.bind fun c => c.err) ≠ e then none
    else
      match e with
      | some err =>
        if err = GoError.contextCanceled then
          some { s with watcher := WatcherPc.deferDone,
                        log := s.log ++ [SrvEvent.shutdownReturned s.now e] }
        else
          some { s with watcher := WatcherPc.deferDone,
                        log := s.log ++ [SrvEvent.shutdownReturned s.now e,
                          SrvEvent.logShutdownError err] }
      | none =>
        some { s with watcher := WatcherPc.deferDone,
                      log := s.log ++ [SrvEvent.shutdownReturned s.now e] }
  | _ => none

/-- One step of a run; a step that is not enabled gives `none`.  The panic of a negative
wait-group counter is recorded in `panicked` and stops nothing by itself: the goroutine
that panicked goes on to its remaining deferred call, and the other goroutine keeps
running until the runtime ends the process, which can be after any later step. -/
def step (tbl : Char → Bool) (server : Server) (s : SrvState) (a : Action) :
    Option SrvState :=
  match a with
  | Action.mainStep => mainStep s
  | Action.listenReturns e => listenReturns tbl server s e
  | Action.watcherStep => watcherStep s
  | Action.shutdownReturns e => shutdownReturns s e
  | Action.cancelApp =>
    some { s with appCtx := s.appCtx.cancel,
                  shutdownCtx := s.shutdownCtx.map Context.cancel,
                  log := s.log ++ [SrvEvent.appCancelled] }
  | Action.tick =>
    some { s with now := s.now + 1,
                  shutdownCtx := s.shutdownCtx.map fun c => c.expire (s.now + 1) }

/-- The state after a sequence of steps. -/
def run (tbl : Char → Bool) (server : Server) (s : SrvState) : List Action → Option SrvState
  | [] => some s
  | a :: rest =>
    match step tbl server s a with
    | some s1 => run tbl server s1 rest
    | none => none

/-- Event `a` happened before an occurrence of event `b`. -/
def Before (a b : SrvEvent) (log : List SrvEvent) : Prop :=
  ∃ l1 l2, log = l1 ++ b :: l2 ∧ a ∈ l1

/-- The main goroutine has executed `wg.Add(1)`. -/
def MainPc.pastAdd : MainPc → Bool
  | MainPc.spawn => false
  | MainPc.add => false
  | _ => true

/-- The watcher has executed its deferred `wg.Done()`. -/
def WatcherPc.pastDone : WatcherPc → Bool
  | WatcherPc.deferCancel => true
  | WatcherPc.exited => true
  | _ => false

/-- The call of `server.Shutdown` by the watcher has returned. -/
def WatcherPc.pastShutdown : WatcherPc → Bool
  | WatcherPc.deferDone => true
  | WatcherPc.deferCancel => true
  | WatcherPc.exited => true
  | _ => false

/-- The watcher has received from `ctx.Done()`. -/
def WatcherPc.pastAwait : WatcherPc → Bool
  | WatcherPc.idle => false
  | WatcherPc.awaitDone => false
  | _ => true

/-- What holds of the wait-group in every state of a run. -/
structure WgInv (s : SrvState) : Prop where
  spawn_idle : s.main = MainPc.spawn → s.watcher = WatcherPc.idle
  wg_eq : s.wg = (if s.main.pastAdd then 1 else 0) - (if s.watcher.pastDone then 1 else 0)
  add_log : s.main.pastAdd = true → SrvEvent.wgAdd ∈ s.log
  add_count : s.log.count SrvEvent.wgAdd ≤ 1
  add_pc : SrvEvent.wgAdd ∈ s.log → s.main.pastAdd = true
  done_log : s.watcher.pastDone = true → SrvEvent.wgDone ∈ s.log
  done_pc : SrvEvent.wgDone ∈ s.log → s.watcher.pastDone = true
  shut_log : s.watcher.pastShutdown = true → ∃ t e, SrvEvent.shutdownReturned t e ∈ s.log
  shut_before_done : SrvEvent.wgDone ∈ s.log →
    ∃ t e, Before (SrvEvent.shutdownReturned t e) SrvEvent.wgDone s.log
  done_before_ret : SrvEvent.startReturned none ∈ s.log →
    Before SrvEvent.wgDone (SrvEvent.startReturned none) s.log

/-- What holds of the two contexts in every state of a run. -/
structure CtxInv (s : SrvState) : Prop where
  app_done : s.watcher.pastAwait = true → s.appCtx.err = some GoError.contextCanceled
  app_err : s.appCtx.err = none ∨ s.appCtx.err = some GoError.contextCanceled
  shutdown_done : ∀ c, s.shutdownCtx = some c → c.err = some GoError.contextCanceled
  called_done : ∀ t c, SrvEvent.shutdownCalled t c ∈ s.log →
    c.err = some GoError.contextCanceled

/-- The server of the examples. -/
def exampleServer : Server := ⟨":8000", 5, 10, 15⟩

/-- A run in which the application context is cancelled while the server is listening, and
a request is in flight: `Shutdown` gives up at once. -/
def cancelWhileListening : List Action :=
  [Action.mainStep, Action.mainStep, Action.mainStep, Action.cancelApp,
    Action.watcherStep, Action.watcherStep, Action.watcherStep, Action.watcherStep,
    Action.shutdownReturns (some GoError.contextCanceled), Action.watcherStep,
    Action.listenReturns (some GoError.errServerClosed), Action.mainStep,
    Action.watcherStep]

/-- A run in which the application context is cancelled before the main goroutine has
incremented the wait-group, and the watcher runs to its deferred `wg.Done()`. -/
def cancelBeforeAdd : List Action :=
  [Action.mainStep, Action.cancelApp, Action.watcherStep, Action.watcherStep,
    Action.watcherStep, Action.watcherStep, Action.shutdownReturns none,
    Action.watcherStep]

/-- The run `cancelBeforeAdd`, after which the main goroutine goes on: `wg.Add(1)`,
`ListenAndServe`, which returns `http.ErrServerClosed` since `Shutdown` has been called,
and `wg.Wait()`, which returns since the counter is back at 0. -/
def doneBeforeAdd : List Action :=
  cancelBeforeAdd ++ [Action.mainStep, Action.mainStep,
    Action.listenReturns (some GoError.errServerClosed), Action.mainStep]

/-! ## Part 4: collaborators modelled from the specification -/

/-- Modelled from the spec: function `osutil.SelectEnvironmentVariables` of package
`pkg/util/osutil`, whose source is not part of the files at hand.  The spec (section 4.1,
Environment Filter): "Reads the current process environment, returns only the key/value
pairs whose key appears in `allowList`; keys absent from the running environment are
silently omitted (no error)."  The process environment is the list `environ` of its
key/value pairs. -/
def SelectEnvironmentVariables (environ : List (String × String))
    (allowList : List String) : EnvironmentVariables :=
  environ.filter fun kv => allowList.contains kv.1

/-- A process environment with a secret that is not on the allow-list. -/
def exampleEnviron : List (String × String) :=
  [("GOROOT", "/usr/local/go"), ("AWS_SECRET_ACCESS_KEY", "hunter2"), ("HOME", "/root")]

/-! ### The artifact store and its janitor -/

/-- Modelled from the spec: the `state` of an Artifact Entry (section 3), "one of
`Reserved`, `Ready`, `Failed`".  The store lives in package `pkg/compiler/storage`, whose
source is not part of the files at hand. -/
inductive EntryState where
  | Reserved
  | Ready
  | Failed
  deriving DecidableEq, Repr

/-- Modelled from the spec: the `buildLog` of an Artifact Entry (section 3), "captured
stdout/stderr and exit status of the compiler process". -/
structure BuildLog where
  stdout : String
  stderr : String
  exitStatus : Int
  deriving DecidableEq, Repr

/-- Modelled from the spec: the Artifact Entry of section 3, with the fields listed there,
and the reference count of section 4.2, "incremented on attach and decremented when a
reader finishes consuming the artifact". -/
structure ArtifactEntry where
  fingerprint : String
  state : EntryState
  outputPath : String
  createdAt : Nat
  lastAccessAt : Nat
  sizeBytes : Nat
  buildLog : Option BuildLog
  readers : Nat
  deriving DecidableEq, Repr

/-- Modelled from the spec: the index of the Artifact Store (section 4.2), fingerprint to
entry, as the list of its entries. -/
abbrev ArtifactStore := List ArtifactEntry

/-- The entry of a fingerprint in the index. -/
def ArtifactStore.lookup (st : ArtifactStore) (fp : String) : Option ArtifactEntry :=
  st.find? fun e => e.fingerprint = fp

/-- The index with the entry of a fingerprint changed by `f`. -/
def ArtifactStore.modify (st : ArtifactStore) (fp : String)
    (f : ArtifactEntry → ArtifactEntry) : ArtifactStore :=
  st.map fun e => if e.fingerprint = fp then f e else e

/-- Modelled from the spec: operation `ReserveOrAttach` of the Artifact Store (section
4.2): it "atomically either creates a new `Reserved` entry and returns
`isNewReservation=true`, or attaches to an existing entry (any state) and returns `false`";
attaching increments the reference count. -/
def ReserveOrAttach (st : ArtifactStore) (fp : String) (now : Nat) : ArtifactStore × Bool :=
  match st.lookup fp with
  | some _ => (st.modify fp fun e => { e with readers := e.readers + 1 }, false)
  | none => (⟨fp, EntryState.Reserved, fp, now, now, 0, none, 0⟩ :: st, true)

/-- Modelled from the spec: operation `Complete` of the Artifact Store (section 4.2): it
"transitions the entry to `Ready` (if `err == nil`) or `Failed`, recording `buildLog`.
Idempotent no-op if already terminal". -/
def Complete (st : ArtifactStore) (fp : String) (ok : Bool) (size : Nat) (log : BuildLog) :
    ArtifactStore :=
  st.modify fp fun e =>
    if e.state = EntryState.Reserved then
      { e with state := if ok then EntryState.Ready else EntryState.Failed,
               sizeBytes := size, buildLog := some log }
    else e

/-- Modelled from the spec: operation `Touch` of the Artifact Store (section 4.2): it
"updates `lastAccessAt`; called on every cache hit". -/
def Touch (st : ArtifactStore) (fp : String) (now : Nat) : ArtifactStore :=
  st.modify fp fun e => { e with lastAccessAt := now }

/-- Modelled from the spec: a reader "finishes consuming the artifact" (section 4.2), which
decrements the reference count of the entry. -/
def Release (st : ArtifactStore) (fp : String) : ArtifactStore :=
  st.modify fp fun e => { e with readers := e.readers - 1 }

/-- Why `Evict` refused. -/
inductive EvictError where
  | notFound
  | busy
  deriving DecidableEq, Repr

/-- Modelled from the spec: operation `Evict` of the Artifact Store (section 4.2): it
"removes a terminal entry's directory and metadata; fails (without side effects) if the
entry is `Reserved` or has active readers". -/
def Evict (st : ArtifactStore) (fp : String) : Except EvictError ArtifactStore :=
  match st.lookup fp with
  | none => Except.error EvictError.notFound
  | some e =>
    if e.state = EntryState.Reserved ∨ 0 < e.readers then Except.error EvictError.busy
    else Except.ok (st.erase e)

/-- Modelled from the spec: the configuration of the Cache Janitor (section 6), "entry TTL,
store size budget". -/
structure JanitorConfig where
  ttl : Nat
  budget : Nat
  deriving DecidableEq, Repr

/-- Modelled from the spec: "age past a TTL" (section 4.3): at time `now`, more than the
TTL has passed since the last access of the entry. -/
def pastTTL (cfg : JanitorConfig) (now : Nat) (e : ArtifactEntry) : Bool :=
  decide (cfg.ttl < now - e.lastAccessAt)

/-- Modelled from the spec: "oldest-`lastAccessAt`-first until under budget" (section
4.3): the entries to drop from a list sorted by last access, given the total size of the
store, until the total is within the budget. -/
def overBudget (budget : Nat) : Nat → List ArtifactEntry → List ArtifactEntry
  | _, [] => []
  | total, e :: rest =>
    if budget < total then e :: overBudget budget (total - e.sizeBytes) rest else []

/-- Modelled from the spec: the first half of a sweep of the Cache Janitor (section 4.3):
it "lists all `Ready`/`Failed` entries, computes an eviction set using a policy combining
(a) age past a TTL and (b) total store size over a configured budget
(oldest-`lastAccessAt`-first until under budget)". -/
def evictionSet (cfg : JanitorConfig) (now : Nat) (st : ArtifactStore) :
    List ArtifactEntry :=
  let listing := st.filter fun e => e.state ≠ EntryState.Reserved
  let old := listing.filter (pastTTL cfg now)
  let young := listing.filter fun e => !pastTTL cfg now e
  let total := ((st.filter fun e => !pastTTL cfg now e).map fun e => e.sizeBytes).sum
  old ++ overBudget cfg.budget total
    (young.insertionSort fun a b => a.lastAccessAt ≤ b.lastAccessAt)

/-- Modelled from the spec: the second half of a sweep of the Cache Janitor (section 4.3),
for one candidate `c` of the listing: it "attempts `Evict`; an entry that gained an active
reader or a fresh `Touch` between listing and eviction is skipped rather than forcibly
removed".  The result is the store, and the entry that was evicted, if any. -/
def evictCandidate (st : ArtifactStore) (c : ArtifactEntry) :
    ArtifactStore × Option ArtifactEntry :=
  match st.lookup c.fingerprint with
  | none => (st, none)
  | some e =>
    if e.lastAccessAt ≠ c.lastAccessAt then (st, none)
    else
      match Evict st c.fingerprint with
      | Except.ok st1 => (st1, some e)
      | Except.error _ => (st, none)

/-- The store, the janitor in the middle of a sweep (`pending` is what is left of its
eviction set), and the entries evicted so far, each as it was when it was evicted. -/
structure StoreSys where
  now : Nat
  store : ArtifactStore
  pending : List ArtifactEntry
  evicted : List ArtifactEntry
  deriving DecidableEq, Repr

/-- The atomic steps of the store: the operations called by the builds, the clock, and the
two kinds of step of the janitor (`StartCleaner`): listing, and one eviction attempt. -/
inductive StoreAction where
  | reserveOrAttach (fp : String)
  | complete (fp : String) (ok : Bool) (size : Nat) (log : BuildLog)
  | touch (fp : String)
  | release (fp : String)
  | tick
  | sweepList
  | sweepEvict
  deriving DecidableEq, Repr

/-- The step is a step of the janitor. -/
def StoreAction.byJanitor : StoreAction → Bool
  | StoreAction.sweepList => true
  | StoreAction.sweepEvict => true
  | _ => false

/-- Modelled from the spec: one atomic step of the store (section 4.2) or of its janitor
(section 4.3). -/
def storeStep (cfg : JanitorConfig) (s : StoreSys) : StoreAction → StoreSys
  | StoreAction.reserveOrAttach fp => { s with store := (ReserveOrAttach s.store fp s.now).1 }
  | StoreAction.complete fp ok size log => { s with store := Complete s.store fp ok size log }
  | StoreAction.touch fp => { s with store := Touch s.store fp s.now }
  | StoreAction.release fp => { s with store := Release s.store fp }
  | StoreAction.tick => { s with now := s.now + 1 }
  | StoreAction.sweepList => { s with pending := evictionSet cfg s.now s.store }
  | StoreAction.sweepEvict =>
    match s.pending with
    | [] => s
    | c :: rest =>
      match (evictCandidate s.store c).2 with
      | some e =>
        { s with store := (evictCandidate s.store c).1, pending := rest,
                 evicted := s.evicted ++ [e] }
      | none => { s with store := (evictCandidate s.store c).1, pending := rest }

/-- The store after a sequence of atomic steps, in any interleaving of the builds and the
janitor. -/
def storeRun (cfg : JanitorConfig) (s : StoreSys) (acts : List StoreAction) : StoreSys :=
  acts.foldl (storeStep cfg) s

/-- A janitor with a TTL of 10 and a budget of 1000 bytes. -/
def exampleJanitor : JanitorConfig := ⟨10, 1000⟩

/-- Two builds are cached, the second is being read; time passes beyond the TTL and the
janitor sweeps; then the reader releases the second entry and the janitor sweeps again. -/
def sweepWhileReading : List StoreAction :=
  [StoreAction.reserveOrAttach "aa", StoreAction.complete "aa" true 10 ⟨"", "", 0⟩,
    StoreAction.reserveOrAttach "bb", StoreAction.complete "bb" false 0 ⟨"", "x", 2⟩,
    StoreAction.reserveOrAttach "bb", StoreAction.reserveOrAttach "cc"]
    ++ List.replicate 11 StoreAction.tick
    ++ [StoreAction.sweepList, StoreAction.sweepEvict, StoreAction.sweepEvict,
      StoreAction.sweepEvict]

/-- The run `sweepWhileReading`, then the release and a second sweep. -/
def sweepAfterRelease : List StoreAction :=
  sweepWhileReading ++ [StoreAction.release "bb", StoreAction.sweepList,
    StoreAction.sweepEvict, StoreAction.sweepEvict]

/-! ### The build orchestrator -/

/-- Modelled from the spec: what `Execute` hands to its caller (section 6): a result with
the captured stdout, stderr and exit status, or an error: `Timeout`, or the "generic
failure" of section 7.  The flag `fromCache` of the result is left out: it tells how the
result was obtained, and the spec does not fix it for a caller that waited for the build
of another caller.  The orchestrator lives in package `pkg/compiler`, whose source is not
part of the files at hand. -/
inductive ExecResult where
  | result (log : BuildLog)
  | timeout
  | failure
  deriving DecidableEq, Repr

/-- Modelled from the spec: the outcomes that step 4 of section 4.4 tells apart: "success
(exit 0, expected output artifact present), compile failure (non-zero exit, no artifact
...), or infrastructure failure (process could not be started, deadline exceeded and
process was killed, disk write failed)". -/
inductive OutcomeKind where
  | success
  | compileFailure
  | infrastructure
  deriving DecidableEq, Repr

/-- Modelled from the spec: what a caller is handed for a finished build of a given kind
(sections 4.4 and 7): the result of a success or of a compile failure, which "is a
*normal* outcome" and is "reported verbatim to the caller"; an infrastructure failure is
"surfaced to the caller as a generic failure". -/
def resultOf (kind : OutcomeKind) (log : BuildLog) : ExecResult :=
  match kind with
  | OutcomeKind.success => ExecResult.result log
  | OutcomeKind.compileFailure => ExecResult.result log
  | OutcomeKind.infrastructure => ExecResult.failure

/-- Modelled from the spec: the configuration that the orchestrator consumes (section 6):
the TTL and the budget of the janitor, the ceiling of the pool of build slots (section 5),
and how the kind of a build is read back from what the entry records of it: the spec has
waiters told a compile failure from an infrastructure failure (section 4.4, step 5), and
of a build the entry records the state and the build log (section 3); so the log that is
recorded for a build that was killed, or never started, is one that reads back as an
infrastructure failure. -/
structure Orchestrator where
  janitor : JanitorConfig
  ceiling : Nat
  classify : BuildLog → OutcomeKind

/-- Modelled from the spec: where a call of `Execute` stands in the algorithm of section
4.4: before `ReserveOrAttach`, reservation owner queueing for a build slot, child process
running, in `Await`, or returned with a result at a time. -/
inductive CallerPc where
  | start
  | owner
  | building
  | waiting
  | returned (r : ExecResult) (time : Nat)
  deriving DecidableEq, Repr

/-- A call of `Execute`: the deadline supplied by the caller, and where the call stands. -/
structure Caller where
  deadline : Nat
  pc : CallerPc
  deriving DecidableEq, Repr

/-- The store with its janitor and its clock, the build slots held by the builds of other
fingerprints, the concurrent calls of `Execute` for one fingerprint, the number of child
processes spawned for them so far, and the number of reservation owners whose deadline
expired while they queued for a build slot. -/
structure BuildSys where
  sys : StoreSys
  busySlots : Nat
  callers : List Caller
  spawned : Nat
  starved : Nat
  deriving DecidableEq, Repr

/-- The atomic steps: the next statement of call `i`; the reservation owner `i` giving up
at its deadline without a build slot; the child process of call `i` ending by itself with
a log and an artifact size; the child process of call `i` being killed at the deadline;
call `i` being woken in `Await`; the wait of call `i` timing out; a step of the janitor;
the clock; a build of another fingerprint taking or giving back a build slot. -/
inductive BuildAction where
  | call (i : Nat)
  | ownerTimesOut (i : Nat) (log : BuildLog)
  | processExits (i : Nat) (log : BuildLog) (size : Nat)
  | processKilled (i : Nat) (log : BuildLog)
  | awaitWake (i : Nat)
  | awaitTimeout (i : Nat)
  | janitor (a : StoreAction)
  | tick
  | otherAcquires
  | otherReleases
  deriving DecidableEq, Repr

/-- The build slots in use: those of the builds of other fingerprints, and one per child
process of the calls. -/
def BuildSys.slotsInUse (s : BuildSys) : Nat :=
  s.busySlots + (s.callers.filter fun c => c.pc = CallerPc.building).length

/-- Modelled from the spec: what a caller that waited returns once the entry is terminal
(section 4.4, step 2): "on reaching `Ready`, `Touch` and return the cached result; on
`Failed`, return the cached failure (do not rebuild)": the result of a success or of a
compile failure, and the generic failure for a failure of the infrastructure. -/
def cachedResult (o : Orchestrator) (e : ArtifactEntry) : ExecResult :=
  match e.buildLog with
  | some log => resultOf (o.classify log) log
  | none => ExecResult.failure

/-- Modelled from the spec: step 5 of section 4.4: "`Complete` the entry with the
outcome": the entry becomes `Ready` for a success and `Failed` for every other kind. -/
def completeBuild (o : Orchestrator) (fp : String) (st : ArtifactStore) (log : BuildLog)
    (size : Nat) : ArtifactStore :=
  Complete st fp (decide (o.classify log = OutcomeKind.success)) size log

/-- Modelled from the spec: what a woken caller does with the terminal entry `e` (section
4.4, step 2): "on reaching `Ready`, `Touch`", and in both terminal states the reference
taken by the attach is given back. -/
def consumeEntry (fp : String) (st : ArtifactStore) (e : ArtifactEntry) (now : Nat) :
    ArtifactStore :=
  Release (if e.state = EntryState.Ready then Touch st fp now else st) fp

/-- The state with the store replaced and call `i` moved on. -/
def BuildSys.advance (s : BuildSys) (st : ArtifactStore) (i : Nat) (c : Caller)
    (pc : CallerPc) : BuildSys :=
  { s with sys := { s.sys with store := st }, callers := s.callers.set i { c with pc := pc } }

/-- Modelled from the spec: one atomic step of the concurrent calls of `Execute` for the
fingerprint `fp`, of the janitor, or of the builds of other fingerprints (sections 4.3,
4.4 and 5).  A call first goes through `ReserveOrAttach`.  The reservation owner queues
for a build slot "subject to [its] own deadline" and spawns the child process; a process
that ends by itself does so before the deadline, the "hard kill timer", and the owner
calls `Complete` with the outcome and returns it; at the deadline the process is killed,
"the entry is marked `Failed` (infrastructure failure)" and "the caller receives a Timeout
error"; an owner whose deadline expires in the queue marks the entry `Failed` likewise and
returns `Timeout` (the spec does not say what becomes of the reservation of an owner that
gets no build slot; the model treats it as the killed build, "so no waiter blocks
forever").  Every other call waits in `Await`: it is woken before its deadline once the
entry is terminal, and from its deadline on its wait ends with `Timeout`.  A failed entry
is not rebuilt ("on `Failed`, return the cached failure (do not rebuild)", section 4.4,
step 2), which is the first of the two behaviours that section 7 leaves open.  A step that
is not enabled gives `none`. -/
def buildStep (o : Orchestrator) (fp : String) (s : BuildSys) : BuildAction → Option BuildSys
  | BuildAction.call i =>
    match s.callers[i]? with
    | some c =>
      match c.pc with
      | CallerPc.start =>
        some (s.advance (ReserveOrAttach s.sys.store fp s.sys.now).1 i c
          (if (ReserveOrAttach s.sys.store fp s.sys.now).2 then CallerPc.owner
           else CallerPc.waiting))
      | CallerPc.owner =>
        if s.sys.now < c.deadline ∧ s.slotsInUse < o.ceiling then
          some { s.advance s.sys.store i c CallerPc.building with spawned := s.spawned + 1 }
        else none
      | _ => none
    | none => none
  | BuildAction.ownerTimesOut i log =>
    match s.callers[i]? with
    | some c =>
      if c.pc = CallerPc.owner ∧ c.deadline ≤ s.sys.now ∧
          o.classify log = OutcomeKind.infrastructure then
        some { s.advance (completeBuild o fp s.sys.store log 0) i c
                 (CallerPc.returned ExecResult.timeout s.sys.now) with
               starved := s.starved + 1 }
      else none
    | none => none
  | BuildAction.processExits i log size =>
    match s.callers[i]? with
    | some c =>
      if c.pc = CallerPc.building ∧ s.sys.now < c.deadline then
        some (s.advance (completeBuild o fp s.sys.store log size) i c
          (CallerPc.returned (resultOf (o.classify log) log) s.sys.now))
      else none
    | none => none
  | BuildAction.processKilled i log =>
    match s.callers[i]? with
    | some c =>
      if c.pc = CallerPc.building ∧ c.deadline ≤ s.sys.now ∧
          o.classify log = OutcomeKind.infrastructure then
        some (s.advance (completeBuild o fp s.sys.store log 0) i c
          (CallerPc.returned ExecResult.timeout s.sys.now))
      else none
    | none => none
  | BuildAction.awaitWake i =>
    match s.callers[i]?, s.sys.store.lookup fp with
    | some c, some e =>
      if c.pc = CallerPc.waiting ∧ e.state ≠ EntryState.Reserved ∧ s.sys.now < c.deadline then
        some (s.advance (consumeEntry fp s.sys.store e s.sys.now) i c
          (CallerPc.returned (cachedResult o e) s.sys.now))
      else none
    | _, _ => none
  | BuildAction.awaitTimeout i =>
    match s.callers[i]? with
    | some c =>
      if c.pc = CallerPc.waiting ∧ c.deadline ≤ s.sys.now then
        some (s.advance (Release s.sys.store fp) i c
          (CallerPc.returned ExecResult.timeout s.sys.now))
      else none
    | none => none
  | BuildAction.janitor a =>
    if a.byJanitor = true then some { s with sys := storeStep o.janitor s.sys a } else none
  | BuildAction.tick => some { s with sys := storeStep o.janitor s.sys StoreAction.tick }
  | BuildAction.otherAcquires =>
    if s.slotsInUse < o.ceiling then some { s with busySlots := s.busySlots + 1 } else none
  | BuildAction.otherReleases =>
    if 0 < s.busySlots then some { s with busySlots := s.busySlots - 1 } else none

/-- The state after a sequence of atomic steps. -/
def buildRun (o : Orchestrator) (fp : String) (s : BuildSys) :
    List BuildAction → Option BuildSys
  | [] => some s
  | a :: rest =>
    match buildStep o fp s a with
    | some s1 => buildRun o fp s1 rest
    | none => none

/-- The state in which the concurrent calls begin: one call per deadline, none of which
has reached `ReserveOrAttach`; the clock is at 0, the janitor is between two sweeps and has
evicted nothing yet, and every build slot is free. -/
def BuildSys.init (st : ArtifactStore) (deadlines : List Nat) : BuildSys where
  sys := ⟨0, st, [], []⟩
  busySlots := 0
  callers := deadlines.map fun d => ⟨d, CallerPc.start⟩
  spawned := 0
  starved := 0

/-- A call has returned. -/
def Caller.hasReturned (c : Caller) : Bool :=
  match c.pc with
  | CallerPc.returned _ _ => true
  | _ => false

/-- The janitor has not evicted an entry of the fingerprint. -/
def NoEvict (fp : String) (s : BuildSys) : Prop :=
  ∀ e ∈ s.sys.evicted, e.fingerprint ≠ fp

/-- Two entries record the same outcome of the build. -/
def SameOutcome (e e1 : ArtifactEntry) : Prop :=
  e1.state = e.state ∧ e1.buildLog = e.buildLog

/-- What holds of the reservation owner: it queues for a build slot and nothing was spawned
yet; or its child process runs, the only one; or it has returned, the entry is terminal,
and either the one child process ended before the deadline and the owner returned its
outcome, or the deadline passed and the owner returned `Timeout`. -/
def OwnerOk (o : Orchestrator) (e : ArtifactEntry) (spawned starved : Nat) (c : Caller) :
    Prop :=
  (c.pc = CallerPc.owner ∧ e.state = EntryState.Reserved ∧ spawned = 0 ∧ starved = 0) ∨
  (c.pc = CallerPc.building ∧ e.state = EntryState.Reserved ∧ spawned = 1 ∧ starved = 0) ∨
  (∃ (r : ExecResult) (t : Nat), c.pc = CallerPc.returned r t ∧
    e.state ≠ EntryState.Reserved ∧ spawned + starved = 1 ∧
    ((r = cachedResult o e ∧ t < c.deadline) ∨ (r = ExecResult.timeout ∧ c.deadline ≤ t)))

/-- What holds of every other call: it has not reached `ReserveOrAttach`, or it waits, or
it has returned: with `Timeout` at or after its deadline, or before its deadline with what
the terminal entry records. -/
def WaiterOk (o : Orchestrator) (e : ArtifactEntry) (c : Caller) : Prop :=
  c.pc = CallerPc.start ∨ c.pc = CallerPc.waiting ∨
  ∃ (r : ExecResult) (t : Nat), c.pc = CallerPc.returned r t ∧
    ((r = ExecResult.timeout ∧ c.deadline ≤ t) ∨
      (e.state ≠ EntryState.Reserved ∧ r = cachedResult o e ∧ t < c.deadline))

/-- What holds of the calls, given the entry of the fingerprint, if any, and whether the
fingerprint had no entry when the calls began (`cold`): without an entry no call has
reached `ReserveOrAttach`; with an entry that was there from the start no call owns the
reservation and nothing is spawned; otherwise one call `k` owns the reservation. -/
def InvCore (o : Orchestrator) (cold : Bool) (entry : Option ArtifactEntry)
    (callers : List Caller) (spawned starved : Nat) : Prop :=
  match entry with
  | none => cold = true ∧ (∀ c ∈ callers, c.pc = CallerPc.start) ∧ spawned = 0 ∧ starved = 0
  | some e =>
    (cold = false ∧ spawned = 0 ∧ starved = 0 ∧ ∀ c ∈ callers, WaiterOk o e c) ∨
    (cold = true ∧ ∃ (k : Nat) (ck : Caller), callers[k]? = some ck ∧
      OwnerOk o e spawned starved ck ∧
      ∀ (j : Nat) (cj : Caller), j ≠ k → callers[j]? = some cj → WaiterOk o e cj)

/-- What holds in every state of the concurrent calls in which the janitor has not evicted
the entry of the fingerprint. -/
def BuildInv (o : Orchestrator) (fp : String) (cold : Bool) (s : BuildSys) : Prop :=
  InvCore o cold (s.sys.store.lookup fp) s.callers s.spawned s.starved

/-- The calls `first`, ..., `first + n - 1` go through `ReserveOrAttach` and are woken in
`Await`, one after the other. -/
def waitersSchedule : Nat → Nat → List BuildAction
  | _, 0 => []
  | first, n + 1 =>
    BuildAction.call first :: BuildAction.awaitWake first :: waitersSchedule (first + 1) n

/-- A schedule of `n` calls in which call 0 is the reservation owner, its child process
ends at once with a log and an artifact size, and the other calls attach afterwards. -/
def completeSchedule (n : Nat) (log : BuildLog) (size : Nat) : List BuildAction :=
  [BuildAction.call 0, BuildAction.call 0, BuildAction.processExits 0 log size]
    ++ waitersSchedule 1 (n - 1)

/-- The log of a successful build of the examples. -/
def exampleLog : BuildLog := ⟨"", "", 0⟩

/-- The log of a build killed at its deadline, or never started, of the examples. -/
def killedLog : BuildLog := ⟨"", "deadline exceeded", -1⟩

/-- An orchestrator with the janitor of the examples and two build slots, which reads the
kind of a build from the exit status of its log: 0 for a success, a negative status for a
failure of the infrastructure, and a compile failure otherwise. -/
def exampleOrchestrator : Orchestrator where
  janitor := exampleJanitor
  ceiling := 2
  classify := fun log =>
    if log.exitStatus = 0 then OutcomeKind.success
    else if log.exitStatus < 0 then OutcomeKind.infrastructure
    else OutcomeKind.compileFailure

/-- Two concurrent calls; the deadline of the second expires while it waits for the build
of the first. -/
def waiterTimesOut : List BuildAction :=
  [BuildAction.call 0, BuildAction.call 1, BuildAction.call 0, BuildAction.tick,
    BuildAction.awaitTimeout 1, BuildAction.tick,
    BuildAction.processExits 0 exampleLog 10]

/-- Two concurrent calls; the first builds and returns, the janitor evicts the entry once
it is past its TTL, and the second call, which had not reached `ReserveOrAttach`, builds
again. -/
def evictedBetween : List BuildAction :=
  [BuildAction.call 0, BuildAction.call 0,
    BuildAction.processExits 0 ⟨"out-A", "", 0⟩ 10]
    ++ List.replicate 11 BuildAction.tick
    ++ [BuildAction.janitor StoreAction.sweepList, BuildAction.janitor StoreAction.sweepEvict,
      BuildAction.call 1, BuildAction.call 1,
      BuildAction.processExits 1 ⟨"out-B", "", 0⟩ 10]

/-- One call; builds of other fingerprints hold the two build slots until the deadline of
the call has passed. -/
def noSlotInTime : List BuildAction :=
  [BuildAction.otherAcquires, BuildAction.otherAcquires, BuildAction.call 0,
    BuildAction.tick, BuildAction.tick, BuildAction.ownerTimesOut 0 killedLog]

/-- Two concurrent calls; the child process of the first is killed at its deadline, and
the second, whose deadline is later, is woken with the failed entry. -/
def ownerKilled : List BuildAction :=
  [BuildAction.call 0, BuildAction.call 0, BuildAction.call 1, BuildAction.tick,
    BuildAction.processKilled 0 killedLog, BuildAction.awaitWake 1]

/-- Three concurrent calls and a sweeping janitor; no deadline expires. -/
def threeCallers : List BuildAction :=
  [BuildAction.call 1, BuildAction.call 0, BuildAction.otherAcquires, BuildAction.call 1,
    BuildAction.call 2, BuildAction.tick, BuildAction.janitor StoreAction.sweepList,
    BuildAction.processExits 1 exampleLog 10, BuildAction.janitor StoreAction.sweepEvict,
    BuildAction.awaitWake 2, BuildAction.otherReleases, BuildAction.awaitWake 0]

/-- The state in which the run `threeCallers` ends, from an empty store and with the
deadlines 100, 100 and 100. -/
def threeCallersEnd : BuildSys where
  sys := ⟨1, [⟨"f", EntryState.Ready, "f", 0, 1, 10, some exampleLog, 0⟩], [], []⟩
  busySlots := 0
  callers := [⟨100, CallerPc.returned (ExecResult.result exampleLog) 1⟩,
    ⟨100, CallerPc.returned (ExecResult.result exampleLog) 1⟩,
    ⟨100, CallerPc.returned (ExecResult.result exampleLog) 1⟩]
  spawned := 1
  starved := 0

/-- A store in which the fingerprint `f` is cached already. -/
def cachedStore : ArtifactStore :=
  [⟨"f", EntryState.Ready, "f", 0, 0, 10, some exampleLog, 0⟩]

/-! ## Facts about `%q` -/

theorem appendEscapedRune_plain (tbl : Char → Bool) (r : Char) (h : plainRune tbl r = true) :
    appendEscapedRune tbl r = [r] := by
  unfold plainRune at h
  simp only [Bool.and_eq_true, bne_iff_ne, ne_eq] at h
  obtain ⟨⟨hp, hq⟩, hb⟩ := h
  unfold appendEscapedRune
  rw [if_neg (by simp [hq, hb]), if_pos hp]

theorem flatMap_appendEscapedRune_plain (tbl : Char → Bool) (l : List Char)
    (h : l.all (plainRune tbl) = true) : l.flatMap (appendEscapedRune tbl) = l := by
  induction l with
  | nil => rfl
  | cons c cs ih =>
    simp only [List.all_cons, Bool.and_eq_true] at h
    rw [List.flatMap_cons, appendEscapedRune_plain tbl c h.1, ih h.2]
    rfl

/-- For a string without quote, backslash or unprintable rune, `%q` prints the string
between two double quotes. -/
theorem strconvQuote_plain (tbl : Char → Bool) (s : String) (h : plainString tbl s = true) :
    strconvQuote tbl s = "\"" ++ s ++ "\"" := by
  unfold strconvQuote
  rw [flatMap_appendEscapedRune_plain tbl s.toList h]
  apply String.ext
  simp [String.data_append]

theorem length_hexDigits (r : Nat) : ∀ n, (hexDigits r n).length = n := by
  intro n
  induction n with
  | zero => rfl
  | succ n ih => simp [hexDigits, ih]

/-- A rune that does not print as itself under `%q` is printed as two runes or more. -/
theorem two_le_length_appendEscapedRune (tbl : Char → Bool) (r : Char)
    (h : plainRune tbl r = false) : 2 ≤ (appendEscapedRune tbl r).length := by
  by_cases hq : r = '"' ∨ r = '\\'
  · simp [appendEscapedRune, hq]
  · have hp : strconvIsPrint tbl r = false := by
      simp only [not_or] at hq
      cases hpr : strconvIsPrint tbl r with
      | false => rfl
      | true => simp [plainRune, hpr, hq.1, hq.2] at h
    simp only [appendEscapedRune, if_neg hq, hp, Bool.false_eq_true, if_false]
    repeat' split
    all_goals simp only [List.length_cons, List.length_nil, length_hexDigits]
    all_goals omega

theorem one_le_length_appendEscapedRune (tbl : Char → Bool) (r : Char) :
    1 ≤ (appendEscapedRune tbl r).length := by
  cases hp : plainRune tbl r with
  | true => simp [appendEscapedRune_plain tbl r hp]
  | false =>
    have := two_le_length_appendEscapedRune tbl r hp
    omega

theorem length_le_flatMap_appendEscapedRune (tbl : Char → Bool) (l : List Char) :
    l.length ≤ (l.flatMap (appendEscapedRune tbl)).length := by
  induction l with
  | nil => simp
  | cons c cs ih =>
    have := one_le_length_appendEscapedRune tbl c
    simp only [List.flatMap_cons, List.length_append, List.length_cons]
    omega

/-- A string that `%q` prints with as many runes as it has holds only runes that print as
themselves. -/
theorem all_plain_of_length_flatMap (tbl : Char → Bool) (l : List Char)
    (h : (l.flatMap (appendEscapedRune tbl)).length = l.length) :
    l.all (plainRune tbl) = true := by
  induction l with
  | nil => rfl
  | cons c cs ih =>
    simp only [List.flatMap_cons, List.length_append, List.length_cons] at h
    have h1 := one_le_length_appendEscapedRune tbl c
    have h2 := length_le_flatMap_appendEscapedRune tbl cs
    have hc : plainRune tbl c = true := by
      cases hp : plainRune tbl c with
      | true => rfl
      | false =>
        have := two_le_length_appendEscapedRune tbl c hp
        omega
    simp only [List.all_cons, hc, Bool.true_and]
    exact ih (by omega)

/-- Between two texts, `%q` prints a string as the string between two double quotes
exactly when the string has no quote, backslash or unprintable rune. -/
theorem quoted_message_iff (tbl : Char → Bool) (pre s mid post : String) :
    pre ++ strconvQuote tbl s ++ mid ++ post
        = (pre ++ "\"") ++ s ++ ("\"" ++ mid) ++ post ↔
      plainString tbl s = true := by
  constructor
  · intro h
    have hd := congrArg String.data h
    simp only [String.data_append, strconvQuote, List.append_assoc, List.cons_append,
      List.nil_append, List.append_cancel_left_eq, List.cons.injEq, true_and] at hd
    have hd2 : s.toList.flatMap (appendEscapedRune tbl) = s.data := by
      have h3 : (s.toList.flatMap (appendEscapedRune tbl)) ++ ('"' :: (mid.data ++ post.data))
          = s.data ++ ('"' :: (mid.data ++ post.data)) := by
        simpa using hd
      exact List.append_cancel_right h3
    exact all_plain_of_length_flatMap tbl s.toList (by rw [hd2]; rfl)
  · intro h
    rw [strconvQuote_plain tbl s h]
    simp only [String.append_assoc]

/-! ## The result of `startHttpServer` -/

/-- Counterexample to C7 as stated: the address `"0.0.0.0:8000"`, written with its double
quotes.  The message of the error is not `cannot start server on `, the address between
double quotes, `: ` and the text of the error: `%q` escapes the two quotes of the
address. -/
theorem startHttpServer_message_counterexample :
    ∃ r, (startHttpServer (fun _ => true) ⟨"\"0.0.0.0:8000\"", 5, 10, 15⟩
        (some (GoError.other 1 "listen tcp: lookup tcp/8000\": unknown port"))).result
          = some r ∧
      r.Error ≠ "cannot start server on \"" ++ "\"0.0.0.0:8000\"" ++ "\": "
        ++ "listen tcp: lookup tcp/8000\": unknown port" ∧
      r.Error = "cannot start server on \"\\\"0.0.0.0:8000\\\"\": "
        ++ "listen tcp: lookup tcp/8000\": unknown port" := by
  refine ⟨_, rfl, by decide, by decide⟩

/-- C7, amended: `startHttpServer` returns nil exactly when `ListenAndServe` returned nil
or `http.ErrServerClosed`; for any other error `e` it returns a non-nil error whose message
is `cannot start server on `, the address of the server as `%q` prints it (between double
quotes, with the quotes, backslashes and unprintable runes of the address escaped), `: `
and the text of `e`; that message is the address between double quotes, as it is, exactly
when the address has no quote, backslash or unprintable rune. -/
theorem startHttpServer_result (tbl : Char → Bool) (server : Server) (e : Option GoError) :
    ((startHttpServer tbl server e).result = none ↔
        (e = none ∨ e = some GoError.errServerClosed)) ∧
    (∀ err, e = some err → err ≠ GoError.errServerClosed →
      ∃ r, (startHttpServer tbl server e).result = some r ∧
        r.Error = "cannot start server on " ++ strconvQuote tbl server.addr ++ ": "
          ++ err.Error ∧
        (r.Error = "cannot start server on \"" ++ server.addr ++ "\": " ++ err.Error ↔
          plainString tbl server.addr = true)) := by
  refine ⟨?_, ?_⟩
  · cases e with
    | none => simp [startHttpServer]
    | some err =>
      by_cases h : err = GoError.errServerClosed
      · simp [startHttpServer, h]
      · simp [startHttpServer, h]
  · intro err he hne
    subst he
    refine ⟨GoError.errorf ("cannot start server on " ++ strconvQuote tbl server.addr ++ ": "
      ++ err.Error), ?_, rfl, ?_⟩
    · simp [startHttpServer, hne]
    · exact quoted_message_iff tbl "cannot start server on " server.addr ": " err.Error

/-- Witness of C7, amended: a server on `:8000` whose listener cannot bind. -/
theorem startHttpServer_result_witness :
    ∃ r, (startHttpServer (fun _ => true) ⟨":8000", 5, 10, 15⟩
        (some (GoError.other 1 "listen tcp :8000: bind: address already in use"))).result
          = some r ∧
      r.Error = "cannot start server on \":8000\": listen tcp :8000: bind: address already in use" := by
  obtain ⟨r, h1, _, h3⟩ := (startHttpServer_result (fun _ => true) ⟨":8000", 5, 10, 15⟩
    (some (GoError.other 1 "listen tcp :8000: bind: address already in use"))).2
    (GoError.other 1 "listen tcp :8000: bind: address already in use") rfl (by decide)
  exact ⟨r, h1, by rw [h3.2 (by decide)]; decide⟩

/-! ## The runs of `start` -/

/-- The run of `start` when the packages file cannot be read. -/
theorem start_of_readPackagesFile_error (w : World) (goRoot : String) (cfg : Config)
    (e : GoError) (h : w.readPackagesFile cfg.build.packagesFile = Except.error e) :
    start w goRoot cfg =
      ⟨[Event.logStarting Version cfg, Event.analyzerSetRoot goRoot,
          Event.readPackagesFile cfg.build.packagesFile],
        some (GoError.errorf ("failed to read packages file "
          ++ strconvQuote w.isPrintTable cfg.build.packagesFile ++ ": " ++ e.Error))⟩ := by
  simp [start, h]

/-- The run of `start` when the store cannot be created. -/
theorem start_of_newLocalStorage_error (w : World) (goRoot : String) (cfg : Config)
    (pk : Packages) (e : GoError)
    (hp : w.readPackagesFile cfg.build.packagesFile = Except.ok pk)
    (hs : w.newLocalStorage cfg.build.buildDir = Except.error e) :
    start w goRoot cfg =
      ⟨[Event.logStarting Version cfg, Event.analyzerSetRoot goRoot,
          Event.readPackagesFile cfg.build.packagesFile,
          Event.newLocalStorage cfg.build.buildDir], some e⟩ := by
  simp [start, hp, hs]

/-- The calls of `startHttpServer` on the main goroutine do not depend on what
`ListenAndServe` returns. -/
theorem startHttpServer_trace (tbl : Char → Bool) (server : Server) (e : Option GoError) :
    (startHttpServer tbl server e).trace =
      [Event.goShutdownWatcher, Event.wgAdd 1, Event.logListening server.addr,
        Event.listenAndServe server] := by
  unfold startHttpServer
  split
  · split <;> rfl
  · rfl

/-- The run of `start` once the packages file is read and the store is created. -/
theorem start_of_ok (w : World) (goRoot : String) (cfg : Config)
    (pk : Packages) (st : LocalStorage)
    (hp : w.readPackagesFile cfg.build.packagesFile = Except.ok pk)
    (hs : w.newLocalStorage cfg.build.buildDir = Except.ok st) :
    (start w goRoot cfg).result =
        (startHttpServer w.isPrintTable ⟨cfg.http.addr, 5, 10, 15⟩
          (w.listenAndServe ⟨cfg.http.addr, 5, 10, 15⟩)).result ∧
    ((start w goRoot cfg).trace =
        setupTrace w goRoot cfg pk st ++ (tplVarsOf w cfg).2 ++ serveTrace w cfg ∨
      (start w goRoot cfg).trace =
        setupTrace w goRoot cfg pk st ++ (tplVarsOf w cfg).2 ++ serveTrace w cfg
          ++ [Event.wgWait]) := by
  have htr := startHttpServer_trace w.isPrintTable ⟨cfg.http.addr, 5, 10, 15⟩
    (w.listenAndServe ⟨cfg.http.addr, 5, 10, 15⟩)
  simp only [start, hp, hs]
  split
  · rename_i err hr
    refine ⟨hr.symm, Or.inl ?_⟩
    simp [htr, setupTrace, serveTrace]
  · rename_i hr
    refine ⟨hr.symm, Or.inr ?_⟩
    simp [htr, setupTrace, serveTrace]

/-- Counterexample to C8 as stated: the packages file `C:\pkgs.json` cannot be read.  The
message of the error is not `failed to read packages file `, the name between double
quotes, `: ` and the text of the error: `%q` doubles the backslash of the name. -/
theorem start_message_counterexample :
    ∃ r, (start worldNoPackagesWindows "C:\\go" windowsConfig).result = some r ∧
      r.Error ≠ "failed to read packages file \"" ++ "C:\\pkgs.json" ++ "\": "
        ++ "open C:\\pkgs.json: file not found" ∧
      r.Error = "failed to read packages file \"C:\\\\pkgs.json\": "
        ++ "open C:\\pkgs.json: file not found" := by
  refine ⟨_, rfl, by decide, by decide⟩

/-- C8, amended: when `analyzer.ReadPackagesFile` fails with `e`, `start` returns the error
whose message is `failed to read packages file `, the file name as `%q` prints it (between
double quotes, with the quotes, backslashes and unprintable runes of the name escaped),
`: ` and the text of `e`; that message is the name between double quotes, as it is, exactly
when the name has no quote, backslash or unprintable rune.  When `storage.NewLocalStorage`
fails with `e`, `start` returns `e` itself.  In both cases the run has not started the
cleaner goroutine, created the build service or made the server listen. -/
theorem start_fails_fast (w : World) (goRoot : String) (cfg : Config) :
    (∀ e, w.readPackagesFile cfg.build.packagesFile = Except.error e →
      (∃ r, (start w goRoot cfg).result = some r ∧
        r.Error = "failed to read packages file "
          ++ strconvQuote w.isPrintTable cfg.build.packagesFile ++ ": " ++ e.Error ∧
        (r.Error = "failed to read packages file \"" ++ cfg.build.packagesFile ++ "\": "
            ++ e.Error ↔
          plainString w.isPrintTable cfg.build.packagesFile = true)) ∧
      ∀ ev ∈ (start w goRoot cfg).trace,
        ev.startsCleaner = false ∧ ev.createsBuildService = false ∧ ev.listens = false) ∧
    (∀ pk e, w.readPackagesFile cfg.build.packagesFile = Except.ok pk →
      w.newLocalStorage cfg.build.buildDir = Except.error e →
      (start w goRoot cfg).result = some e ∧
      ∀ ev ∈ (start w goRoot cfg).trace,
        ev.startsCleaner = false ∧ ev.createsBuildService = false ∧ ev.listens = false) := by
  refine ⟨?_, ?_⟩
  · intro e he
    rw [start_of_readPackagesFile_error w goRoot cfg e he]
    refine ⟨⟨_, rfl, rfl, ?_⟩, ?_⟩
    · exact quoted_message_iff w.isPrintTable "failed to read packages file "
        cfg.build.packagesFile ": " e.Error
    · intro ev hev
      simp only [List.mem_cons, List.mem_singleton, List.not_mem_nil, or_false] at hev
      rcases hev with h | h | h <;> subst h <;> exact ⟨rfl, rfl, rfl⟩
  · intro pk e hp hs
    rw [start_of_newLocalStorage_error w goRoot cfg pk e hp hs]
    refine ⟨rfl, ?_⟩
    intro ev hev
    simp only [List.mem_cons, List.mem_singleton, List.not_mem_nil, or_false] at hev
    rcases hev with h | h | h | h <;> subst h <;> exact ⟨rfl, rfl, rfl⟩

/-- Witness of C8, amended: the packages file `packages.json` is missing. -/
theorem start_fails_fast_witness :
    (∃ r, (start worldNoPackages "/usr/local/go" exampleConfig).result = some r ∧
      r.Error = "failed to read packages file \"packages.json\": "
        ++ "open packages.json: no such file or directory") ∧
    ∀ ev ∈ (start worldNoPackages "/usr/local/go" exampleConfig).trace,
      ev.startsCleaner = false ∧ ev.createsBuildService = false ∧ ev.listens = false := by
  obtain ⟨⟨r, h1, _, h3⟩, h4⟩ :=
    (start_fails_fast worldNoPackages "/usr/local/go" exampleConfig).1
      (GoError.other 1 "open packages.json: no such file or directory") rfl
  exact ⟨⟨r, h1, by rw [h3.2 (by decide)]; decide⟩, h4⟩

/-! ## The analytics tag -/

/-- The tag that `start` keeps is empty, or it is the configured tag and
`webutil.ValidateGTag` accepts it. -/
theorem tplVarsOf_tag (w : World) (cfg : Config) :
    (tplVarsOf w cfg).1.googleTagID = "" ∨
      ((tplVarsOf w cfg).1.googleTagID = cfg.services.googleAnalyticsID ∧
        w.validateGTag cfg.services.googleAnalyticsID = none) := by
  unfold tplVarsOf
  by_cases h : cfg.services.googleAnalyticsID = ""
  · simp [h]
  · cases hv : w.validateGTag cfg.services.googleAnalyticsID with
    | none => simp [h, hv]
    | some err => simp [h, hv]

/-- The tag that `start` keeps is empty when the configured tag is rejected. -/
theorem tplVarsOf_rejected (w : World) (cfg : Config) (err : GoError)
    (hv : w.validateGTag cfg.services.googleAnalyticsID = some err) :
    (tplVarsOf w cfg).1.googleTagID = "" := by
  unfold tplVarsOf
  by_cases h : cfg.services.googleAnalyticsID = ""
  · simp [h]
  · simp [h, hv]

/-- Validating the tag hands no template arguments to anyone. -/
theorem tplVarsOf_events (w : World) (cfg : Config) :
    ∀ ev ∈ (tplVarsOf w cfg).2, ev.templateTag? = none ∧ ev.envSpec? = none ∧
      selectCalls [ev] = [] ∧ ev.createsBuildService = false := by
  unfold tplVarsOf
  by_cases h : cfg.services.googleAnalyticsID = ""
  · simp [h]
  · cases hv : w.validateGTag cfg.services.googleAnalyticsID with
    | none => simp [h, hv, Event.templateTag?, Event.envSpec?, selectCalls,
        Event.createsBuildService]
    | some err => simp [h, hv, Event.templateTag?, Event.envSpec?, selectCalls,
        Event.createsBuildService]

/-- The tags handed to the file servers in a run of `start` are the tag that `start` kept. -/
theorem start_templateTag (w : World) (goRoot : String) (cfg : Config) :
    ∀ ev ∈ (start w goRoot cfg).trace, ∀ tag, ev.templateTag? = some tag →
      tag = (tplVarsOf w cfg).1.googleTagID := by
  intro ev hev tag htag
  cases hp : w.readPackagesFile cfg.build.packagesFile with
  | error e =>
    rw [start_of_readPackagesFile_error w goRoot cfg e hp] at hev
    simp only [List.mem_cons, List.mem_singleton, List.not_mem_nil, or_false] at hev
    rcases hev with h | h | h <;> subst h <;> simp [Event.templateTag?] at htag
  | ok pk =>
    cases hs : w.newLocalStorage cfg.build.buildDir with
    | error e =>
      rw [start_of_newLocalStorage_error w goRoot cfg pk e hp hs] at hev
      simp only [List.mem_cons, List.mem_singleton, List.not_mem_nil, or_false] at hev
      rcases hev with h | h | h | h <;> subst h <;> simp [Event.templateTag?] at htag
    | ok st =>
      have hmem : ev ∈ setupTrace w goRoot cfg pk st ∨ ev ∈ (tplVarsOf w cfg).2 ∨
          ev ∈ serveTrace w cfg ∨ ev = Event.wgWait := by
        rcases (start_of_ok w goRoot cfg pk st hp hs).2 with h | h
        · rw [h] at hev
          simp only [List.mem_append] at hev
          tauto
        · rw [h] at hev
          simp only [List.mem_append, List.mem_singleton] at hev
          tauto
      rcases hmem with h | h | h | h
      · simp only [setupTrace, List.mem_cons, List.mem_singleton, List.not_mem_nil,
          or_false] at h
        rcases h with h | h | h | h | h | h | h | h | h | h | h | h | h <;> subst h <;>
          simp [Event.templateTag?] at htag
      · rw [(tplVarsOf_events w cfg ev h).1] at htag
        cases htag
      · simp only [serveTrace, List.mem_cons, List.mem_singleton, List.not_mem_nil,
          or_false] at h
        rcases h with h | h | h | h | h | h | h | h | h <;> subst h <;>
          simp [Event.templateTag?] at htag <;> exact htag.symm
      · subst h
        simp [Event.templateTag?] at htag

/-- The error that `start` returns does not depend on `webutil.ValidateGTag`. -/
theorem start_result_validateGTag (w : World) (goRoot : String) (cfg : Config)
    (validate : String → Option GoError) :
    (start { w with validateGTag := validate } goRoot cfg).result
      = (start w goRoot cfg).result := by
  cases hp : w.readPackagesFile cfg.build.packagesFile with
  | error e =>
    rw [start_of_readPackagesFile_error w goRoot cfg e hp,
      start_of_readPackagesFile_error { w with validateGTag := validate } goRoot cfg e hp]
  | ok pk =>
    cases hs : w.newLocalStorage cfg.build.buildDir with
    | error e =>
      rw [start_of_newLocalStorage_error w goRoot cfg pk e hp hs,
        start_of_newLocalStorage_error { w with validateGTag := validate } goRoot cfg pk e
          hp hs]
    | ok st =>
      rw [(start_of_ok w goRoot cfg pk st hp hs).1,
        (start_of_ok { w with validateGTag := validate } goRoot cfg pk st hp hs).1]

/-- C9: in every run of `start`, the tag in the template arguments handed to the index and
SPA file servers is empty, or it is the configured tag and `webutil.ValidateGTag` returns
nil on it; a configured tag that is not empty and is rejected is replaced by the empty
string, the file servers are still created, and `start` returns what it returns when the
tag is accepted. -/
theorem invalid_gtag_ignored (w : World) (goRoot : String) (cfg : Config) :
    (∀ ev ∈ (start w goRoot cfg).trace, ∀ tag, ev.templateTag? = some tag →
      tag = "" ∨
        (tag = cfg.services.googleAnalyticsID ∧
          w.validateGTag cfg.services.googleAnalyticsID = none)) ∧
    (∀ err, cfg.services.googleAnalyticsID ≠ "" →
      w.validateGTag cfg.services.googleAnalyticsID = some err →
      (∀ ev ∈ (start w goRoot cfg).trace, ∀ tag, ev.templateTag? = some tag → tag = "") ∧
      (start w goRoot cfg).result
        = (start { w with validateGTag := fun _ => none } goRoot cfg).result ∧
      ∀ pk st, w.readPackagesFile cfg.build.packagesFile = Except.ok pk →
        w.newLocalStorage cfg.build.buildDir = Except.ok st →
        Event.newTemplateFileServer (w.filepathJoin cfg.http.assetsDir w.indexFileName) ⟨""⟩
            ∈ (start w goRoot cfg).trace ∧
          Event.newSpaFileServer cfg.http.assetsDir ⟨""⟩ ∈ (start w goRoot cfg).trace) := by
  refine ⟨?_, ?_⟩
  · intro ev hev tag htag
    rw [start_templateTag w goRoot cfg ev hev tag htag]
    exact tplVarsOf_tag w cfg
  · intro err _ hv
    refine ⟨?_, (start_result_validateGTag w goRoot cfg _).symm, ?_⟩
    · intro ev hev tag htag
      rw [start_templateTag w goRoot cfg ev hev tag htag]
      exact tplVarsOf_rejected w cfg err hv
    · intro pk st hp hs
      have htpl : (tplVarsOf w cfg).1 = ⟨""⟩ := by
        have := tplVarsOf_rejected w cfg err hv
        cases hx : (tplVarsOf w cfg).1
        rw [hx] at this
        simpa using this
      rcases (start_of_ok w goRoot cfg pk st hp hs).2 with h | h <;> rw [h] <;>
        simp [serveTrace, htpl]

/-- Witness of C9: the configured tag `bad` is rejected. -/
theorem invalid_gtag_ignored_witness :
    (∀ ev ∈ (start worldOk "/usr/local/go" exampleConfig).trace, ∀ tag,
      ev.templateTag? = some tag → tag = "") ∧
    Event.newSpaFileServer "public" ⟨""⟩
      ∈ (start worldOk "/usr/local/go" exampleConfig).trace ∧
    (start worldOk "/usr/local/go" exampleConfig).result = none := by
  have h := (invalid_gtag_ignored worldOk "/usr/local/go" exampleConfig).2
    (GoError.other 2 "invalid GTag") (by decide) rfl
  exact ⟨h.1, (h.2.2 ⟨7⟩ ⟨1⟩ rfl rfl).2, by decide⟩

/-! ## The environment specification -/

/-- Counterexample to C5 as stated: in the run of `start` in which the packages file cannot
be read, the environment filter is not called once but never, and `start` returns the
error of the packages file. -/
theorem envSpec_once_counterexample :
    ¬ (selectCalls (start worldNoPackages "/usr/local/go" exampleConfig).trace).length = 1 ∧
    selectCalls (start worldNoPackages "/usr/local/go" exampleConfig).trace = [] ∧
    (start worldNoPackages "/usr/local/go" exampleConfig).result ≠ none := by
  decide

/-- The calls up to the creation of the API call the environment filter once. -/
theorem selectCalls_setupTrace (w : World) (goRoot : String) (cfg : Config) (pk : Packages)
    (st : LocalStorage) :
    selectCalls (setupTrace w goRoot cfg pk st) = [cfg.build.bypassEnvVarsList] := by
  simp [selectCalls, setupTrace]

/-- The calls from the file servers on do not call the environment filter. -/
theorem selectCalls_serveTrace (w : World) (cfg : Config) :
    selectCalls (serveTrace w cfg) = [] := by
  simp [selectCalls, serveTrace]

/-- Validating the tag does not call the environment filter. -/
theorem selectCalls_tplVarsOf (w : World) (cfg : Config) :
    selectCalls (tplVarsOf w cfg).2 = [] := by
  unfold tplVarsOf
  by_cases h : cfg.services.googleAnalyticsID = ""
  · simp [h, selectCalls]
  · cases hv : w.validateGTag cfg.services.googleAnalyticsID with
    | none => simp [h, hv, selectCalls]
    | some err => simp [h, hv, selectCalls]

theorem selectCalls_append (a b : List Event) :
    selectCalls (a ++ b) = selectCalls a ++ selectCalls b := by
  simp [selectCalls, List.filterMap_append]

/-- Every call of a run of `start` that carries the environment specification carries the
value that the environment filter returned for `cfg.Build.BypassEnvVarsList`. -/
theorem start_envSpec (w : World) (goRoot : String) (cfg : Config) :
    ∀ ev ∈ (start w goRoot cfg).trace, ∀ vars, ev.envSpec? = some vars →
      vars = w.selectEnvironmentVariables cfg.build.bypassEnvVarsList := by
  intro ev hev vars hvars
  cases hp : w.readPackagesFile cfg.build.packagesFile with
  | error e =>
    rw [start_of_readPackagesFile_error w goRoot cfg e hp] at hev
    simp only [List.mem_cons, List.mem_singleton, List.not_mem_nil, or_false] at hev
    rcases hev with h | h | h <;> subst h <;> simp [Event.envSpec?] at hvars
  | ok pk =>
    cases hs : w.newLocalStorage cfg.build.buildDir with
    | error e =>
      rw [start_of_newLocalStorage_error w goRoot cfg pk e hp hs] at hev
      simp only [List.mem_cons, List.mem_singleton, List.not_mem_nil, or_false] at hev
      rcases hev with h | h | h | h <;> subst h <;> simp [Event.envSpec?] at hvars
    | ok st =>
      have htr := (start_of_ok w goRoot cfg pk st hp hs).2
      have hmem : ev ∈ setupTrace w goRoot cfg pk st ∨ ev ∈ (tplVarsOf w cfg).2 ∨
          ev ∈ serveTrace w cfg ∨ ev = Event.wgWait := by
        rcases htr with h | h
        · rw [h] at hev
          simp only [List.mem_append] at hev
          tauto
        · rw [h] at hev
          simp only [List.mem_append, List.mem_singleton] at hev
          tauto
      rcases hmem with h | h | h | h
      · simp only [setupTrace, List.mem_cons, List.mem_singleton, List.not_mem_nil,
          or_false] at h
        rcases h with h | h | h | h | h | h | h | h | h | h | h | h | h <;> subst h <;>
          simp [Event.envSpec?] at hvars <;> exact hvars.symm
      · rw [(tplVarsOf_events w cfg ev h).2.1] at hvars
        cases hvars
      · simp only [serveTrace, List.mem_cons, List.mem_singleton, List.not_mem_nil,
          or_false] at h
        rcases h with h | h | h | h | h | h | h | h | h <;> subst h <;>
          simp [Event.envSpec?] at hvars
      · subst h
        simp [Event.envSpec?] at hvars

/-- A run of `start` that gets past the packages file and the store constructs the build
service with the value that the environment filter returned. -/
theorem start_newBuildService_mem (w : World) (goRoot : String) (cfg : Config)
    (pk : Packages) (st : LocalStorage)
    (hp : w.readPackagesFile cfg.build.packagesFile = Except.ok pk)
    (hs : w.newLocalStorage cfg.build.buildDir = Except.ok st) :
    Event.newBuildService ⟨w.selectEnvironmentVariables cfg.build.bypassEnvVarsList⟩ st
      ∈ (start w goRoot cfg).trace := by
  rcases (start_of_ok w goRoot cfg pk st hp hs).2 with h | h <;> rw [h] <;>
    simp [setupTrace]

/-- The error that `start` returns does not depend on the environment filter. -/
theorem start_result_selectEnvironmentVariables (w : World) (goRoot : String) (cfg : Config)
    (sel : List String → EnvironmentVariables) :
    (start { w with selectEnvironmentVariables := sel } goRoot cfg).result
      = (start w goRoot cfg).result := by
  cases hp : w.readPackagesFile cfg.build.packagesFile with
  | error e =>
    rw [start_of_readPackagesFile_error w goRoot cfg e hp,
      start_of_readPackagesFile_error { w with selectEnvironmentVariables := sel } goRoot cfg
        e hp]
  | ok pk =>
    cases hs : w.newLocalStorage cfg.build.buildDir with
    | error e =>
      rw [start_of_newLocalStorage_error w goRoot cfg pk e hp hs,
        start_of_newLocalStorage_error { w with selectEnvironmentVariables := sel } goRoot
          cfg pk e hp hs]
    | ok st =>
      rw [(start_of_ok w goRoot cfg pk st hp hs).1,
        (start_of_ok { w with selectEnvironmentVariables := sel } goRoot cfg pk st hp hs).1]

/-- C5, amended: in every run of `start` that gets past `analyzer.ReadPackagesFile` and
`storage.NewLocalStorage`, the environment filter is called exactly once, with
`cfg.Build.BypassEnvVarsList`, before the build service is constructed; the value handed to
`compiler.NewBuildService` is the result of that call, and every later call that carries
the environment specification carries that same value.  In a run that fails at one of the
two steps the filter is not called and no build service is constructed. -/
theorem envSpec_computed_once (w : World) (goRoot : String) (cfg : Config) :
    (∀ pk st, w.readPackagesFile cfg.build.packagesFile = Except.ok pk →
      w.newLocalStorage cfg.build.buildDir = Except.ok st →
      selectCalls (start w goRoot cfg).trace = [cfg.build.bypassEnvVarsList] ∧
      (∃ pre post, (start w goRoot cfg).trace =
          pre ++ Event.selectEnvironmentVariables cfg.build.bypassEnvVarsList :: post ∧
        (∀ ev ∈ pre, ev.createsBuildService = false ∧ ev.envSpec? = none) ∧
        Event.newBuildService ⟨w.selectEnvironmentVariables cfg.build.bypassEnvVarsList⟩ st
          ∈ post) ∧
      ∀ ev ∈ (start w goRoot cfg).trace, ∀ vars, ev.envSpec? = some vars →
        vars = w.selectEnvironmentVariables cfg.build.bypassEnvVarsList) ∧
    ((∃ e, w.readPackagesFile cfg.build.packagesFile = Except.error e) ∨
        (∃ e, w.newLocalStorage cfg.build.buildDir = Except.error e) →
      selectCalls (start w goRoot cfg).trace = [] ∧
      ∀ ev ∈ (start w goRoot cfg).trace, ev.createsBuildService = false) := by
  refine ⟨?_, ?_⟩
  · intro pk st hp hs
    have htr := (start_of_ok w goRoot cfg pk st hp hs).2
    refine ⟨?_, ?_, ?_⟩
    · rcases htr with h | h
      · rw [h]
        simp [selectCalls_append, selectCalls_setupTrace, selectCalls_serveTrace,
          selectCalls_tplVarsOf]
      · rw [h]
        simp [selectCalls_append, selectCalls_setupTrace, selectCalls_serveTrace,
          selectCalls_tplVarsOf]
        simp [selectCalls]
    · have hrest : ∃ rest, (start w goRoot cfg).trace
          = setupTrace w goRoot cfg pk st ++ rest := by
        rcases htr with h | h
        · exact ⟨(tplVarsOf w cfg).2 ++ serveTrace w cfg, by rw [h, List.append_assoc]⟩
        · exact ⟨(tplVarsOf w cfg).2 ++ serveTrace w cfg ++ [Event.wgWait],
            by rw [h]; simp only [List.append_assoc]⟩
      obtain ⟨rest, hrest⟩ := hrest
      refine ⟨[Event.logStarting Version cfg, Event.analyzerSetRoot goRoot,
        Event.readPackagesFile cfg.build.packagesFile,
        Event.newLocalStorage cfg.build.buildDir,
        Event.getApplicationContext,
        Event.goStartCleaner st cfg.build.cleanupInterval,
        Event.goplayNewClient cfg.playground.playgroundURL cfg.playground.connectTimeout,
        Event.goplayNewClient cfg.playground.goTipPlaygroundURL
          cfg.playground.connectTimeout],
        [Event.logLoadedVars (w.selectEnvironmentVariables cfg.build.bypassEnvVarsList),
          Event.newBuildService ⟨w.selectEnvironmentVariables cfg.build.bypassEnvVarsList⟩ st,
          Event.muxNewRouter,
          Event.langserverNewMount Version pk
            ⟨⟨w.selectEnvironmentVariables cfg.build.bypassEnvVarsList⟩, st⟩] ++ rest,
        ?_, ?_, ?_⟩
      · rw [hrest]
        simp [setupTrace]
      · intro ev hev
        simp only [List.mem_cons, List.mem_singleton, List.not_mem_nil, or_false] at hev
        rcases hev with h | h | h | h | h | h | h | h <;> subst h <;> exact ⟨rfl, rfl⟩
      · simp
    · exact start_envSpec w goRoot cfg
  · intro hfail
    cases hp : w.readPackagesFile cfg.build.packagesFile with
    | error e =>
      rw [start_of_readPackagesFile_error w goRoot cfg e hp]
      refine ⟨by simp [selectCalls], ?_⟩
      intro ev hev
      simp only [List.mem_cons, List.mem_singleton, List.not_mem_nil, or_false] at hev
      rcases hev with h | h | h <;> subst h <;> rfl
    | ok pk =>
      rcases hfail with ⟨e, he⟩ | ⟨e, he⟩
      · rw [hp] at he
        cases he
      · rw [start_of_newLocalStorage_error w goRoot cfg pk e hp he]
        refine ⟨by simp [selectCalls], ?_⟩
        intro ev hev
        simp only [List.mem_cons, List.mem_singleton, List.not_mem_nil, or_false] at hev
        rcases hev with h | h | h | h <;> subst h <;> rfl

/-- Witness of C5, amended: a run in which every collaborator succeeds. -/
theorem envSpec_computed_once_witness :
    selectCalls (start worldOk "/usr/local/go" exampleConfig).trace = [["GOROOT", "GOPATH"]] ∧
    ∀ ev ∈ (start worldOk "/usr/local/go" exampleConfig).trace, ∀ vars,
      ev.envSpec? = some vars → vars = [("GOROOT", "v"), ("GOPATH", "v")] := by
  have h := (envSpec_computed_once worldOk "/usr/local/go" exampleConfig).1 ⟨7⟩ ⟨1⟩ rfl rfl
  exact ⟨h.1, h.2.2⟩

/-- C1: for every allow-list `L` (the list `cfg.Build.BypassEnvVarsList`) and every process
environment `E`, the environment specification that `start` builds with
`osutil.SelectEnvironmentVariables(L...)` contains exactly the key/value pairs of `E` whose
key is in `L`; a key of `L` that is not set in `E` is omitted, and it causes no error: the
build service is constructed all the same, and `start` returns what it returns for any
other environment. -/
theorem environment_filter (w : World) (E : List (String × String)) (goRoot : String)
    (cfg : Config) :
    (∀ ev ∈ (start { w with selectEnvironmentVariables := SelectEnvironmentVariables E }
        goRoot cfg).trace,
      ∀ vars, ev.envSpec? = some vars →
        (∀ k v, (k, v) ∈ vars ↔ ((k, v) ∈ E ∧ k ∈ cfg.build.bypassEnvVarsList)) ∧
        ∀ k ∈ cfg.build.bypassEnvVarsList, (∀ v, (k, v) ∉ E) → ∀ v, (k, v) ∉ vars) ∧
    (∀ pk st, w.readPackagesFile cfg.build.packagesFile = Except.ok pk →
      w.newLocalStorage cfg.build.buildDir = Except.ok st →
      Event.newBuildService ⟨SelectEnvironmentVariables E cfg.build.bypassEnvVarsList⟩ st
        ∈ (start { w with selectEnvironmentVariables := SelectEnvironmentVariables E }
            goRoot cfg).trace) ∧
    (∀ E2, (start { w with selectEnvironmentVariables := SelectEnvironmentVariables E }
        goRoot cfg).result
      = (start { w with selectEnvironmentVariables := SelectEnvironmentVariables E2 }
        goRoot cfg).result) := by
  refine ⟨?_, ?_, ?_⟩
  · intro ev hev vars hvars
    have hv := start_envSpec _ goRoot cfg ev hev vars hvars
    have hiff : ∀ k v, (k, v) ∈ vars ↔ ((k, v) ∈ E ∧ k ∈ cfg.build.bypassEnvVarsList) := by
      intro k v
      rw [hv]
      simp [SelectEnvironmentVariables, List.mem_filter]
    refine ⟨hiff, ?_⟩
    intro k _ hk v hmem
    exact hk v ((hiff k v).1 hmem).1
  · intro pk st hp hs
    exact start_newBuildService_mem
      { w with selectEnvironmentVariables := SelectEnvironmentVariables E } goRoot cfg pk st
      hp hs
  · intro E2
    rw [start_result_selectEnvironmentVariables w goRoot cfg (SelectEnvironmentVariables E),
      start_result_selectEnvironmentVariables w goRoot cfg (SelectEnvironmentVariables E2)]

/-- Witness of C1: with the allow-list `GOROOT`, `GOPATH`, the secret and `HOME` are left
out, and `GOPATH`, which is not set, is omitted. -/
theorem environment_filter_witness :
    Event.newBuildService ⟨[("GOROOT", "/usr/local/go")]⟩ ⟨1⟩
      ∈ (start { worldOk with selectEnvironmentVariables :=
          SelectEnvironmentVariables exampleEnviron } "/usr/local/go" exampleConfig).trace :=
  (environment_filter worldOk exampleEnviron "/usr/local/go" exampleConfig).2.1 ⟨7⟩ ⟨1⟩
    rfl rfl

/-! ## The two goroutines of `startHttpServer` -/

theorem Before.append_right {a b : SrvEvent} {l : List SrvEvent} (h : Before a b l)
    (l2 : List SrvEvent) : Before a b (l ++ l2) := by
  obtain ⟨l1, l3, hl, ha⟩ := h
  exact ⟨l1, l3 ++ l2, by rw [hl]; simp, ha⟩

theorem Before.of_mem_snoc {a b : SrvEvent} {l : List SrvEvent} (h : a ∈ l) :
    Before a b (l ++ [b]) :=
  ⟨l, [], rfl, h⟩

theorem Before.mem_left {a b : SrvEvent} {l : List SrvEvent} (h : Before a b l) : a ∈ l := by
  obtain ⟨l1, l3, hl, ha⟩ := h
  rw [hl]
  exact List.mem_append_left _ ha

theorem Before.mem_right {a b : SrvEvent} {l : List SrvEvent} (h : Before a b l) : b ∈ l := by
  obtain ⟨l1, l3, hl, _⟩ := h
  rw [hl]
  simp

theorem WgInv.wgInit : WgInv SrvState.init := by
  constructor <;> simp [SrvState.init, MainPc.pastAdd, WatcherPc.pastDone,
    WatcherPc.pastShutdown]

theorem CtxInv.ctxInit : CtxInv SrvState.init := by
  constructor <;> simp [SrvState.init, WatcherPc.pastAwait]

/-- A step that appends to the log, and neither touches the wait-group nor returns from
`start`, keeps the invariant of the wait-group. -/
theorem WgInv.of_append {s s1 : SrvState} (hi : WgInv s) (l : List SrvEvent)
    (hlog : s1.log = s.log ++ l)
    (hnd : SrvEvent.wgDone ∉ l) (hnr : SrvEvent.startReturned none ∉ l)
    (hna : SrvEvent.wgAdd ∉ l)
    (hwg : s1.wg = s.wg)
    (hadd : s1.main.pastAdd = s.main.pastAdd)
    (hdone : s1.watcher.pastDone = s.watcher.pastDone)
    (hshut : s1.watcher.pastShutdown = true →
      s.watcher.pastShutdown = true ∨ ∃ t e, SrvEvent.shutdownReturned t e ∈ l)
    (hspawn : s1.main = MainPc.spawn → s1.watcher = WatcherPc.idle) :
    WgInv s1 := by
  obtain ⟨h0, h1, h3, hc, hapc, h4, h5, h6, h8, h9⟩ := hi
  refine ⟨hspawn, ?_, ?_, ?_, ?_, ?_, ?_, ?_, ?_, ?_⟩
  · rw [hwg, hadd, hdone]
    exact h1
  · intro h
    rw [hlog]
    exact List.mem_append_left _ (h3 (hadd ▸ h))
  · rw [hlog, List.count_append, List.count_eq_zero_of_not_mem hna]
    exact hc
  · intro h
    rw [hlog, List.mem_append] at h
    rcases h with h | h
    · rw [hadd]
      exact hapc h
    · exact absurd h hna
  · intro h
    rw [hlog]
    exact List.mem_append_left _ (h4 (hdone ▸ h))
  · intro h
    rw [hlog, List.mem_append] at h
    rcases h with h | h
    · rw [hdone]
      exact h5 h
    · exact absurd h hnd
  · intro h
    rcases hshut h with h | ⟨t, e, h⟩
    · obtain ⟨t, e, h⟩ := h6 h
      exact ⟨t, e, by rw [hlog]; exact List.mem_append_left _ h⟩
    · exact ⟨t, e, by rw [hlog]; exact List.mem_append_right _ h⟩
  · intro h
    rw [hlog, List.mem_append] at h
    rcases h with h | h
    · obtain ⟨t, e, hb⟩ := h8 h
      exact ⟨t, e, by rw [hlog]; exact hb.append_right l⟩
    · exact absurd h hnd
  · intro h
    rw [hlog, List.mem_append] at h
    rcases h with h | h
    · rw [hlog]
      exact (h9 h).append_right l
    · exact absurd h hnr

theorem WgInv.mainStep {s s1 : SrvState} (hi : WgInv s)
    (h : mainStep s = some s1) : WgInv s1 := by
  unfold GoPlayground.mainStep at h
  cases hm : s.main <;> rw [hm] at h <;> simp at h
  · subst h
    have hw := hi.spawn_idle hm
    exact hi.of_append [SrvEvent.goWatcher] rfl (by simp) (by simp) (by simp) rfl
      (by simp [hm, MainPc.pastAdd]) (by simp [hw, WatcherPc.pastDone])
      (by simp [WatcherPc.pastShutdown]) (by simp)
  · subst h
    obtain ⟨_, h1, _, hc, hapc, h4, h5, h6, h8, h9⟩ := hi
    have hnone : SrvEvent.wgAdd ∉ s.log := by
      intro hmem
      have := hapc hmem
      rw [hm] at this
      cases this
    refine ⟨by simp, ?_, ?_, ?_, ?_, fun h => List.mem_append_left _ (h4 h), ?_, ?_, ?_, ?_⟩
    · simp only [MainPc.pastAdd, if_true]
      rw [h1]
      simp only [hm, MainPc.pastAdd]
      by_cases hd : s.watcher.pastDone = true <;> simp [hd]
    · intro _
      simp
    · show (s.log ++ [SrvEvent.wgAdd]).count SrvEvent.wgAdd ≤ 1
      rw [List.count_append, List.count_eq_zero_of_not_mem hnone]
      simp
    · intro _
      rfl
    · intro hd
      simp only [List.mem_append, List.mem_singleton, reduceCtorEq, or_false] at hd
      exact h5 hd
    · intro h
      obtain ⟨t, e, h⟩ := h6 h
      exact ⟨t, e, List.mem_append_left _ h⟩
    · intro hd
      simp only [List.mem_append, List.mem_singleton, reduceCtorEq, or_false] at hd
      obtain ⟨t, e, hb⟩ := h8 hd
      exact ⟨t, e, hb.append_right _⟩
    · intro hd
      simp only [List.mem_append, List.mem_singleton, reduceCtorEq, or_false] at hd
      exact (h9 hd).append_right _
  · subst h
    exact hi.of_append [SrvEvent.listenCalled] rfl (by simp) (by simp) (by simp) rfl
      (by simp [hm, MainPc.pastAdd]) rfl (fun h => Or.inl h) (by simp)
  · obtain ⟨hwg0, h⟩ := h
    subst h
    obtain ⟨_, h1, h3, hc, hapc, h4, h5, h6, h8, h9⟩ := hi
    have hdone : s.watcher.pastDone = true := by
      rw [hm] at h1
      simp only [MainPc.pastAdd, if_true] at h1
      by_contra hnd
      rw [if_neg hnd] at h1
      omega
    refine ⟨by simp, ?_, ?_, ?_, ?_, fun h => List.mem_append_left _ (h4 h), ?_, ?_, ?_, ?_⟩
    · show s.wg = _
      rw [h1]
      simp [hm, MainPc.pastAdd]
    · intro _
      exact List.mem_append_left _ (h3 (by simp [hm, MainPc.pastAdd]))
    · show (s.log ++ [SrvEvent.startReturned none]).count SrvEvent.wgAdd ≤ 1
      rw [List.count_append]
      simpa using hc
    · intro _
      rfl
    · intro _
      exact hdone
    · intro h
      obtain ⟨t, e, h⟩ := h6 h
      exact ⟨t, e, List.mem_append_left _ h⟩
    · intro hd
      obtain ⟨t, e, hb⟩ := h8 (h4 hdone)
      exact ⟨t, e, hb.append_right _⟩
    · intro _
      exact Before.of_mem_snoc (h4 hdone)

theorem WgInv.listenReturns {tbl : Char → Bool} {server : Server} {s s1 : SrvState}
    (hi : WgInv s) (e : Option GoError)
    (h : listenReturns tbl server s e = some s1) : WgInv s1 := by
  unfold GoPlayground.listenReturns at h
  cases hm : s.main <;> rw [hm] at h <;> simp at h
  obtain ⟨_, h⟩ := h
  split at h
  · simp at h
    subst h
    exact hi.of_append [SrvEvent.listenReturned e, SrvEvent.startReturned (some _)] rfl
      (by simp) (by simp) (by simp) rfl (by simp [hm, MainPc.pastAdd]) rfl
      (fun h => Or.inl h) (by simp)
  · simp at h
    subst h
    exact hi.of_append [SrvEvent.listenReturned e] rfl
      (by simp) (by simp) (by simp) rfl (by simp [hm, MainPc.pastAdd]) rfl
      (fun h => Or.inl h) (by simp)

theorem WgInv.shutdownReturns {s s1 : SrvState} (hi : WgInv s) (e : Option GoError)
    (h : shutdownReturns s e = some s1) : WgInv s1 := by
  unfold GoPlayground.shutdownReturns at h
  cases hw : s.watcher <;> rw [hw] at h <;> simp at h
  have hsp : s.main = MainPc.spawn → False := by
    intro hm
    have := hi.spawn_idle hm
    rw [hw] at this
    cases this
  obtain ⟨_, h⟩ := h
  split at h
  · split at h
    · simp at h
      subst h
      exact hi.of_append [SrvEvent.shutdownReturned s.now _] rfl
        (by simp) (by simp) (by simp) rfl rfl (by simp [hw, WatcherPc.pastDone])
        (fun _ => Or.inr ⟨_, _, List.mem_singleton.2 rfl⟩)
        (fun hm => (hsp hm).elim)
    · simp at h
      subst h
      exact hi.of_append [SrvEvent.shutdownReturned s.now _, SrvEvent.logShutdownError _] rfl
        (by simp) (by simp) (by simp) rfl rfl (by simp [hw, WatcherPc.pastDone])
        (fun _ => Or.inr ⟨_, _, List.mem_cons_self _ _⟩)
        (fun hm => (hsp hm).elim)
  · simp at h
    subst h
    exact hi.of_append [SrvEvent.shutdownReturned s.now _] rfl
      (by simp) (by simp) (by simp) rfl rfl (by simp [hw, WatcherPc.pastDone])
      (fun _ => Or.inr ⟨_, _, List.mem_singleton.2 rfl⟩)
      (fun hm => (hsp hm).elim)

theorem WgInv.watcherStep {s s1 : SrvState} (hi : WgInv s)
    (h : watcherStep s = some s1) : WgInv s1 := by
  unfold GoPlayground.watcherStep at h
  have hsp : s.watcher ≠ WatcherPc.idle → s.main = MainPc.spawn → False := by
    intro hne hm
    exact hne (hi.spawn_idle hm)
  cases hw : s.watcher <;> rw [hw] at h <;> simp at h
  · obtain ⟨_, h⟩ := h
    subst h
    exact hi.of_append [SrvEvent.doneReceived] rfl (by simp) (by simp) (by simp) rfl rfl
      (by simp [hw, WatcherPc.pastDone]) (by simp [WatcherPc.pastShutdown])
      (fun hm => (hsp (by simp [hw]) hm).elim)
  · subst h
    exact hi.of_append [SrvEvent.withTimeout _] rfl (by simp) (by simp) (by simp) rfl rfl
      (by simp [hw, WatcherPc.pastDone]) (by simp [WatcherPc.pastShutdown])
      (fun hm => (hsp (by simp [hw]) hm).elim)
  · subst h
    exact hi.of_append [SrvEvent.keepAlivesDisabled] rfl (by simp) (by simp) (by simp) rfl
      rfl (by simp [hw, WatcherPc.pastDone]) (by simp [WatcherPc.pastShutdown])
      (fun hm => (hsp (by simp [hw]) hm).elim)
  · cases hc : s.shutdownCtx <;> rw [hc] at h <;> simp at h
    subst h
    exact hi.of_append [SrvEvent.shutdownCalled s.now _] rfl (by simp) (by simp) (by simp)
      rfl rfl (by simp [hw, WatcherPc.pastDone]) (by simp [WatcherPc.pastShutdown])
      (fun hm => (hsp (by simp [hw]) hm).elim)
  · subst h
    obtain ⟨_, h1, h3, hc, hapc, h4, h5, h6, h8, h9⟩ := hi
    have hshut := h6 (by simp [hw, WatcherPc.pastShutdown])
    have hwg : s.wg = if s.main.pastAdd = true then 1 else 0 := by
      rw [h1]
      simp [hw, WatcherPc.pastDone]
    refine ⟨fun hm => (hsp (by simp [hw]) hm).elim, ?_,
      fun h => List.mem_append_left _ (h3 h), ?_, ?_, ?_, ?_, ?_, ?_, ?_⟩
    · show s.wg - 1 = _
      rw [hwg]
      simp [WatcherPc.pastDone]
    · show (s.log ++ [SrvEvent.wgDone]).count SrvEvent.wgAdd ≤ 1
      rw [List.count_append]
      simpa using hc
    · intro ha
      simp only [List.mem_append, List.mem_singleton, reduceCtorEq, or_false] at ha
      exact hapc ha
    · intro _
      simp
    · intro _
      rfl
    · intro _
      obtain ⟨t, e, h⟩ := hshut
      exact ⟨t, e, List.mem_append_left _ h⟩
    · intro _
      obtain ⟨t, e, h⟩ := hshut
      exact ⟨t, e, Before.of_mem_snoc h⟩
    · intro hr
      simp only [List.mem_append, List.mem_singleton, reduceCtorEq, or_false] at hr
      exact (h9 hr).append_right _
  · subst h
    exact hi.of_append [SrvEvent.cancelCalled] rfl (by simp) (by simp) (by simp) rfl rfl
      (by simp [hw, WatcherPc.pastDone]) (by simp [hw, WatcherPc.pastShutdown])
      (fun hm => (hsp (by simp [hw]) hm).elim)

/-- Every step of a run keeps the invariant of the wait-group. -/
theorem WgInv.wgStep {tbl : Char → Bool} {server : Server} {s s1 : SrvState} {a : Action}
    (hi : WgInv s) (h : step tbl server s a = some s1) : WgInv s1 := by
  unfold GoPlayground.step at h
  cases a with
  | mainStep => exact hi.mainStep h
  | listenReturns e => exact hi.listenReturns e h
  | watcherStep => exact hi.watcherStep h
  | shutdownReturns e => exact hi.shutdownReturns e h
  | cancelApp =>
    simp at h
    subst h
    exact hi.of_append [SrvEvent.appCancelled] rfl (by simp) (by simp) (by simp) rfl rfl rfl
      (fun h => Or.inl h) hi.spawn_idle
  | tick =>
    simp at h
    subst h
    exact hi.of_append [] (by simp) (by simp) (by simp) (by simp) rfl rfl rfl
      (fun h => Or.inl h) hi.spawn_idle

/-- Every state of a run satisfies the invariant of the wait-group. -/
theorem WgInv.wgRun {tbl : Char → Bool} {server : Server} (acts : List Action) :
    ∀ {s s1 : SrvState}, WgInv s → run tbl server s acts = some s1 → WgInv s1 := by
  induction acts with
  | nil =>
    intro s s1 hi h
    simp [GoPlayground.run] at h
    exact h ▸ hi
  | cons a rest ih =>
    intro s s1 hi h
    simp only [GoPlayground.run] at h
    cases hs : GoPlayground.step tbl server s a with
    | none => simp [hs] at h
    | some s2 =>
      rw [hs] at h
      exact ih (hi.wgStep hs) h

/-- A context that is done stays done, with the same error, when it is cancelled. -/
theorem Context.cancel_err_of_done (c : Context) (e : GoError) (h : c.err = some e) :
    c.cancel.err = some e := by
  simp [Context.cancel, h, Option.orElse]

/-- A context that is done stays done, with the same error, when time passes. -/
theorem Context.expire_err_of_done (c : Context) (now : Nat) (e : GoError)
    (h : c.err = some e) : (c.expire now).err = some e := by
  unfold Context.expire
  split
  · split
    · simp [h, Option.orElse]
    · exact h
  · exact h

/-- A step that leaves the contexts alone and logs no call of `Shutdown` keeps the
invariant of the contexts. -/
theorem CtxInv.of_frame {s s1 : SrvState} (hi : CtxInv s) (l : List SrvEvent)
    (hlog : s1.log = s.log ++ l) (happ : s1.appCtx = s.appCtx)
    (hctx : s1.shutdownCtx = s.shutdownCtx)
    (hcall : ∀ t c, SrvEvent.shutdownCalled t c ∈ l → s.shutdownCtx = some c)
    (hpc : s1.watcher.pastAwait = true →
      s.watcher.pastAwait = true ∨ s.appCtx.err.isSome = true) :
    CtxInv s1 := by
  obtain ⟨h1, h2, h3, h4⟩ := hi
  refine ⟨?_, ?_, ?_, ?_⟩
  · intro h
    rw [happ]
    rcases hpc h with h | h
    · exact h1 h
    · rcases h2 with h2 | h2
      · rw [h2] at h
        cases h
      · exact h2
  · rw [happ]
    exact h2
  · intro c hc
    rw [hctx] at hc
    exact h3 c hc
  · intro t c hc
    rw [hlog, List.mem_append] at hc
    rcases hc with hc | hc
    · exact h4 t c hc
    · exact h3 c (hcall t c hc)

/-- Every step of a run keeps the invariant of the contexts. -/
theorem CtxInv.ctxStep {tbl : Char → Bool} {server : Server} {s s1 : SrvState} {a : Action}
    (hi : CtxInv s) (h : step tbl server s a = some s1) : CtxInv s1 := by
  unfold GoPlayground.step at h
  cases a with
  | mainStep =>
    simp only at h
    unfold GoPlayground.mainStep at h
    cases hm : s.main <;> rw [hm] at h <;> simp at h
    · subst h
      exact hi.of_frame [SrvEvent.goWatcher] rfl rfl rfl (by simp)
        (by simp [WatcherPc.pastAwait])
    · subst h
      exact hi.of_frame [SrvEvent.wgAdd] rfl rfl rfl (by simp) (fun h => Or.inl h)
    · subst h
      exact hi.of_frame [SrvEvent.listenCalled] rfl rfl rfl (by simp) (fun h => Or.inl h)
    · obtain ⟨_, h⟩ := h
      subst h
      exact hi.of_frame [SrvEvent.startReturned none] rfl rfl rfl (by simp)
        (fun h => Or.inl h)
  | listenReturns e =>
    unfold GoPlayground.listenReturns at h
    cases hm : s.main <;> rw [hm] at h <;> simp at h
    obtain ⟨_, h⟩ := h
    split at h
    · simp at h
      subst h
      exact hi.of_frame [SrvEvent.listenReturned e, SrvEvent.startReturned (some _)] rfl rfl
        rfl (by simp) (fun h => Or.inl h)
    · simp at h
      subst h
      exact hi.of_frame [SrvEvent.listenReturned e] rfl rfl rfl (by simp) (fun h => Or.inl h)
  | watcherStep =>
    unfold GoPlayground.watcherStep at h
    cases hw : s.watcher <;> rw [hw] at h <;> simp at h
    · obtain ⟨hd, h⟩ := h
      subst h
      exact hi.of_frame [SrvEvent.doneReceived] rfl rfl rfl (by simp)
        (fun _ => Or.inr (by simpa using hd))
    · subst h
      obtain ⟨h1, h2, h3, h4⟩ := hi
      have happ := h1 (by simp [hw, WatcherPc.pastAwait])
      refine ⟨fun _ => happ, h2, ?_, ?_⟩
      · intro c hc
        simp only [Option.some.injEq] at hc
        subst hc
        exact happ
      · intro t c hc
        simp only [List.mem_append, List.mem_singleton, reduceCtorEq, or_false] at hc
        exact h4 t c hc
    · subst h
      exact hi.of_frame [SrvEvent.keepAlivesDisabled] rfl rfl rfl (by simp)
        (fun _ => Or.inl (by simp [hw, WatcherPc.pastAwait]))
    · cases hc : s.shutdownCtx <;> rw [hc] at h <;> simp at h
      subst h
      refine hi.of_frame [SrvEvent.shutdownCalled s.now _] rfl rfl hc.symm ?_
        (fun _ => Or.inl (by simp [hw, WatcherPc.pastAwait]))
      intro t c hmem
      simp only [List.mem_singleton, SrvEvent.shutdownCalled.injEq] at hmem
      rw [hc, hmem.2]
    · subst h
      exact hi.of_frame [SrvEvent.wgDone] rfl rfl rfl (by simp)
        (fun _ => Or.inl (by simp [hw, WatcherPc.pastAwait]))
    · subst h
      obtain ⟨h1, h2, h3, h4⟩ := hi
      refine ⟨fun _ => h1 (by simp [hw, WatcherPc.pastAwait]), h2, ?_, ?_⟩
      · intro c hc
        simp only [Option.map_eq_some'] at hc
        obtain ⟨c0, hc0, rfl⟩ := hc
        exact c0.cancel_err_of_done _ (h3 c0 hc0)
      · intro t c hc
        simp only [List.mem_append, List.mem_singleton, reduceCtorEq, or_false] at hc
        exact h4 t c hc
  | shutdownReturns e =>
    unfold GoPlayground.shutdownReturns at h
    cases hw : s.watcher <;> rw [hw] at h <;> simp at h
    obtain ⟨_, h⟩ := h
    split at h
    · split at h
      · simp at h
        subst h
        exact hi.of_frame [SrvEvent.shutdownReturned s.now _] rfl rfl rfl (by simp)
          (fun _ => Or.inl (by simp [hw, WatcherPc.pastAwait]))
      · simp at h
        subst h
        exact hi.of_frame [SrvEvent.shutdownReturned s.now _, SrvEvent.logShutdownError _]
          rfl rfl rfl (by simp) (fun _ => Or.inl (by simp [hw, WatcherPc.pastAwait]))
    · simp at h
      subst h
      exact hi.of_frame [SrvEvent.shutdownReturned s.now _] rfl rfl rfl (by simp)
        (fun _ => Or.inl (by simp [hw, WatcherPc.pastAwait]))
  | cancelApp =>
    simp at h
    subst h
    obtain ⟨h1, h2, h3, h4⟩ := hi
    have happ : s.appCtx.cancel.err = some GoError.contextCanceled := by
      rcases h2 with h2 | h2
      · simp [Context.cancel, h2, Option.orElse]
      · exact s.appCtx.cancel_err_of_done _ h2
    refine ⟨fun _ => happ, Or.inr happ, ?_, ?_⟩
    · intro c hc
      simp only [Option.map_eq_some'] at hc
      obtain ⟨c0, hc0, rfl⟩ := hc
      exact c0.cancel_err_of_done _ (h3 c0 hc0)
    · intro t c hc
      simp only [List.mem_append, List.mem_singleton, reduceCtorEq, or_false] at hc
      exact h4 t c hc
  | tick =>
    simp at h
    subst h
    obtain ⟨h1, h2, h3, h4⟩ := hi
    refine ⟨h1, h2, ?_, h4⟩
    intro c hc
    simp only [Option.map_eq_some'] at hc
    obtain ⟨c0, hc0, rfl⟩ := hc
    exact c0.expire_err_of_done _ _ (h3 c0 hc0)

/-- Every state of a run satisfies the invariant of the contexts. -/
theorem CtxInv.ctxRun {tbl : Char → Bool} {server : Server} (acts : List Action) :
    ∀ {s s1 : SrvState}, CtxInv s → run tbl server s acts = some s1 → CtxInv s1 := by
  induction acts with
  | nil =>
    intro s s1 hi h
    simp [GoPlayground.run] at h
    exact h ▸ hi
  | cons a rest ih =>
    intro s s1 hi h
    simp only [GoPlayground.run] at h
    cases hs : GoPlayground.step tbl server s a with
    | none => simp [hs] at h
    | some s2 =>
      rw [hs] at h
      exact ih (hi.ctxStep hs) h

/-- C2: the grace period of the shutdown.  In every run of `startHttpServer`, the context
that the goroutine hands to `server.Shutdown` is done already at the moment of the call,
with `Err()` equal to `context.Canceled`: `context.WithTimeout(ctx, 30*time.Second)` derives
it from the application context, which is cancelled by then.  So `Shutdown` is not given a
context that is still open for 30 seconds. -/
theorem shutdown_context_done_at_call (tbl : Char → Bool) (server : Server)
    (acts : List Action) (s : SrvState)
    (h : run tbl server SrvState.init acts = some s) :
    ∀ t c, SrvEvent.shutdownCalled t c ∈ s.log → c.err = some GoError.contextCanceled :=
  (CtxInv.ctxRun acts CtxInv.ctxInit h).called_done

/-- Witness of C2: the application context is cancelled while the server is listening and a
request is in flight.  `Shutdown` is called at time 0 with a context whose deadline is 30
and which is done; it returns `context.Canceled` at time 0, and `start` returns nil with
the clock still at 0. -/
theorem shutdown_context_done_at_call_witness :
    ∃ s, run (fun _ => true) exampleServer SrvState.init cancelWhileListening = some s ∧
      SrvEvent.shutdownCalled 0 ⟨some 30, some GoError.contextCanceled⟩ ∈ s.log ∧
      SrvEvent.shutdownReturned 0 (some GoError.contextCanceled) ∈ s.log ∧
      s.main = MainPc.returned none ∧ s.now = 0 ∧
      (⟨some 30, some GoError.contextCanceled⟩ : Context).err
        = some GoError.contextCanceled := by
  refine ⟨_, rfl, by decide, by decide, rfl, rfl, ?_⟩
  exact shutdown_context_done_at_call (fun _ => true) exampleServer cancelWhileListening _
    rfl 0 _ (by decide)

/-- The part of C6 that holds in every run: `start` returns nil only after the shutdown
goroutine has returned from `server.Shutdown` and then called `wg.Done`, and `wg.Add(1)`
is executed at most once. -/
theorem start_returns_after_wgDone (tbl : Char → Bool) (server : Server)
    (acts : List Action) (s : SrvState)
    (h : run tbl server SrvState.init acts = some s)
    (hr : SrvEvent.startReturned none ∈ s.log) :
    (∃ t e, Before (SrvEvent.shutdownReturned t e) SrvEvent.wgDone s.log) ∧
    Before SrvEvent.wgDone (SrvEvent.startReturned none) s.log ∧
    s.log.count SrvEvent.wgAdd ≤ 1 := by
  have hi := WgInv.wgRun acts WgInv.wgInit h
  have hb := hi.done_before_ret hr
  exact ⟨hi.shut_before_done hb.mem_left, hb, hi.add_count⟩

/-- C6: the wait-group of `startHttpServer`.  The goroutine is started before the main
goroutine executes `wg.Add(1)`.  In the run `doneBeforeAdd` the application context is
cancelled in between and the goroutine reaches its deferred `wg.Done()` first: the counter
goes to -1 and `wg.Done` panics; the main goroutine still executes `wg.Add(1)`,
`server.ListenAndServe` returns `http.ErrServerClosed`, and `start` returns nil.  So in a
run in which `ListenAndServe` returns `http.ErrServerClosed`, `wg.Done` has preceded
`wg.Add(1)` and the counter has been negative. -/
theorem waitgroup_done_before_add :
    ∃ s0 s, run (fun _ => true) exampleServer SrvState.init cancelBeforeAdd = some s0 ∧
      s0.wg = -1 ∧ s0.panicked = true ∧
      run (fun _ => true) exampleServer SrvState.init doneBeforeAdd = some s ∧
      SrvEvent.listenReturned (some GoError.errServerClosed) ∈ s.log ∧
      s.main = MainPc.returned none ∧
      s.log.count SrvEvent.wgAdd = 1 ∧ s.log.count SrvEvent.wgDone = 1 ∧
      Before SrvEvent.wgDone SrvEvent.wgAdd s.log := by
  refine ⟨_, _, rfl, by decide, by decide, rfl, by decide, by decide, by decide, by decide,
    ?_⟩
  exact ⟨[SrvEvent.goWatcher, SrvEvent.appCancelled, SrvEvent.doneReceived,
      SrvEvent.withTimeout ⟨some 30, some GoError.contextCanceled⟩,
      SrvEvent.keepAlivesDisabled,
      SrvEvent.shutdownCalled 0 ⟨some 30, some GoError.contextCanceled⟩,
      SrvEvent.shutdownReturned 0 none, SrvEvent.wgDone],
    [SrvEvent.listenCalled, SrvEvent.listenReturned (some GoError.errServerClosed),
      SrvEvent.startReturned none], by decide, by decide⟩

/-! ## The janitor of the artifact store -/

/-- What `Evict` removes: an entry of the store that is terminal and has no reader. -/
theorem Evict_ok (st st1 : ArtifactStore) (fp : String) (h : Evict st fp = Except.ok st1) :
    ∃ e, st.lookup fp = some e ∧ e ∈ st ∧ e.state ≠ EntryState.Reserved ∧ e.readers = 0 ∧
      st1 = st.erase e := by
  unfold Evict at h
  cases hl : st.lookup fp with
  | none => simp [hl] at h
  | some e =>
    rw [hl] at h
    simp only at h
    split at h
    · cases h
    · rename_i hc
      simp only [not_or, Nat.not_lt, Nat.le_zero_eq] at hc
      injection h with h
      exact ⟨e, rfl, List.mem_of_find?_eq_some hl, hc.1, hc.2, h.symm⟩

/-- What `Evict` leaves alone when it refuses: the whole store. -/
theorem evictCandidate_spec (st : ArtifactStore) (c : ArtifactEntry) :
    ((evictCandidate st c).2 = none ∧ (evictCandidate st c).1 = st) ∨
    ∃ e, (evictCandidate st c).2 = some e ∧ e ∈ st ∧ e.state ≠ EntryState.Reserved ∧
      e.readers = 0 ∧ (evictCandidate st c).1 = st.erase e := by
  unfold evictCandidate
  cases hl : st.lookup c.fingerprint with
  | none => exact Or.inl ⟨rfl, rfl⟩
  | some e =>
    simp only
    split
    · exact Or.inl ⟨rfl, rfl⟩
    · cases hev : Evict st c.fingerprint with
      | error err => exact Or.inl ⟨rfl, rfl⟩
      | ok st1 =>
        obtain ⟨e1, h1, h2, h3, h4, h5⟩ := Evict_ok st st1 c.fingerprint hev
        rw [hl] at h1
        injection h1 with h1
        subst h1
        exact Or.inr ⟨e, rfl, h2, h3, h4, h5⟩

/-- A state that is not `Reserved` is `Ready` or `Failed`. -/
theorem EntryState.terminal_of_ne (st : EntryState) (h : st ≠ EntryState.Reserved) :
    st = EntryState.Ready ∨ st = EntryState.Failed := by
  cases st with
  | Reserved => exact absurd rfl h
  | Ready => exact Or.inl rfl
  | Failed => exact Or.inr rfl

/-- A step of the store only logs evictions of terminal entries without readers. -/
theorem storeStep_evicted (cfg : JanitorConfig) (s : StoreSys) (a : StoreAction)
    (h : ∀ e ∈ s.evicted, (e.state = EntryState.Ready ∨ e.state = EntryState.Failed) ∧
      e.readers = 0) :
    ∀ e ∈ (storeStep cfg s a).evicted,
      (e.state = EntryState.Ready ∨ e.state = EntryState.Failed) ∧ e.readers = 0 := by
  cases a with
  | sweepEvict =>
    unfold storeStep
    cases hp : s.pending with
    | nil => simpa using h
    | cons c rest =>
      simp only
      rcases evictCandidate_spec s.store c with ⟨h1, _⟩ | ⟨e1, h1, _, h3, h4, _⟩
      · rw [h1]
        exact h
      · rw [h1]
        intro e he
        simp only [List.mem_append, List.mem_singleton] at he
        rcases he with he | he
        · exact h e he
        · subst he
          exact ⟨EntryState.terminal_of_ne _ h3, h4⟩
  | _ => exact h

/-- A run of the store only logs evictions of terminal entries without readers. -/
theorem storeRun_evicted (cfg : JanitorConfig) (acts : List StoreAction) :
    ∀ s : StoreSys,
      (∀ e ∈ s.evicted, (e.state = EntryState.Ready ∨ e.state = EntryState.Failed) ∧
        e.readers = 0) →
      ∀ e ∈ (storeRun cfg s acts).evicted,
        (e.state = EntryState.Ready ∨ e.state = EntryState.Failed) ∧ e.readers = 0 := by
  induction acts with
  | nil => intro s h; exact h
  | cons a rest ih =>
    intro s h
    exact ih (storeStep cfg s a) (storeStep_evicted cfg s a h)

/-- A step of the janitor keeps every entry, or logs its eviction. -/
theorem storeStep_janitor (cfg : JanitorConfig) (s : StoreSys) (a : StoreAction)
    (ha : a.byJanitor = true) :
    ∀ e ∈ s.store, e ∈ (storeStep cfg s a).store ∨
      (e ∈ (storeStep cfg s a).evicted ∧ e.state ≠ EntryState.Reserved ∧ e.readers = 0) := by
  intro e he
  cases a with
  | sweepList => exact Or.inl he
  | sweepEvict =>
    unfold storeStep
    cases hp : s.pending with
    | nil => exact Or.inl he
    | cons c rest =>
      simp only
      rcases evictCandidate_spec s.store c with ⟨h1, h2⟩ | ⟨e1, h1, _, h3, h4, h5⟩
      · rw [h1]
        simp only [h2]
        exact Or.inl he
      · rw [h1]
        simp only [h5]
        by_cases hee : e = e1
        · subst hee
          exact Or.inr ⟨by simp, h3, h4⟩
        · exact Or.inl ((List.mem_erase_of_ne hee).2 he)
  | reserveOrAttach fp => cases ha
  | complete fp ok size log => cases ha
  | touch fp => cases ha
  | release fp => cases ha
  | tick => cases ha

/-- C4: janitor safety.  In every interleaving of the builds with the cleaner, from every
state of the store: every entry that the cleaner evicts is, at the moment of its eviction,
in state `Ready` or `Failed` with a reference count of 0; and a step of the cleaner never
removes from the store an entry that is `Reserved` or whose reference count is greater than
0. -/
theorem janitor_safety (cfg : JanitorConfig) (s0 : StoreSys) (acts : List StoreAction) :
    (s0.evicted = [] →
      ∀ e ∈ (storeRun cfg s0 acts).evicted,
        (e.state = EntryState.Ready ∨ e.state = EntryState.Failed) ∧ e.readers = 0) ∧
    (∀ a : StoreAction, a.byJanitor = true →
      ∀ e ∈ (storeRun cfg s0 acts).store,
        (e.state = EntryState.Reserved ∨ 0 < e.readers) →
        e ∈ (storeStep cfg (storeRun cfg s0 acts) a).store) ∧
    (∀ a : StoreAction, a.byJanitor = true →
      ∀ e ∈ (storeRun cfg s0 acts).store,
        e ∉ (storeStep cfg (storeRun cfg s0 acts) a).store →
        e ∈ (storeStep cfg (storeRun cfg s0 acts) a).evicted) := by
  refine ⟨?_, ?_, ?_⟩
  · intro h0
    apply storeRun_evicted
    rw [h0]
    intro e he
    cases he
  · intro a ha e he hbusy
    rcases storeStep_janitor cfg _ a ha e he with h | ⟨_, h3, h4⟩
    · exact h
    · rcases hbusy with hb | hb
      · exact absurd hb h3
      · omega
  · intro a ha e he hgone
    rcases storeStep_janitor cfg _ a ha e he with h | ⟨h, _, _⟩
    · exact absurd h hgone
    · exact h

/-- Witness of C4: the janitor sweeps while the entry `bb` is being read and the entry
`cc` is being built: it evicts the entry `aa` only; `bb` goes at the sweep that follows
the release. -/
theorem janitor_safety_witness :
    ((storeRun exampleJanitor ⟨0, [], [], []⟩ sweepWhileReading).evicted.map
        fun e => e.fingerprint) = ["aa"] ∧
    ((storeRun exampleJanitor ⟨0, [], [], []⟩ sweepWhileReading).store.map
        fun e => (e.fingerprint, e.state, e.readers))
      = [("cc", EntryState.Reserved, 0), ("bb", EntryState.Failed, 1)] ∧
    ((storeRun exampleJanitor ⟨0, [], [], []⟩ sweepAfterRelease).evicted.map
        fun e => e.fingerprint) = ["aa", "bb"] ∧
    ∀ e ∈ (storeRun exampleJanitor ⟨0, [], [], []⟩ sweepAfterRelease).evicted,
      (e.state = EntryState.Ready ∨ e.state = EntryState.Failed) ∧ e.readers = 0 :=
  ⟨by decide, by decide, by decide,
    (janitor_safety exampleJanitor ⟨0, [], [], []⟩ sweepAfterRelease).1 rfl⟩

/-! ## The concurrent calls of `Execute` -/

theorem lookup_modify (st : ArtifactStore) (fp : String) (f : ArtifactEntry → ArtifactEntry)
    (hf : ∀ e, (f e).fingerprint = e.fingerprint) :
    (st.modify fp f).lookup fp = (st.lookup fp).map f := by
  unfold ArtifactStore.modify ArtifactStore.lookup
  induction st with
  | nil => rfl
  | cons a rest ih =>
    by_cases ha : a.fingerprint = fp
    · simp [List.find?_cons, ha, hf]
    · simp only [List.map_cons, List.find?_cons]
      rw [if_neg ha]
      simp only [ha, decide_False]
      exact ih

/-- Erasing an entry of another fingerprint leaves the entry of the fingerprint alone. -/
theorem lookup_erase_ne (st : ArtifactStore) (fp : String) (e : ArtifactEntry)
    (h : e.fingerprint ≠ fp) :
    ArtifactStore.lookup (st.erase e) fp = ArtifactStore.lookup st fp := by
  unfold ArtifactStore.lookup
  induction st with
  | nil => rfl
  | cons a rest ih =>
    by_cases hae : a = e
    · subst hae
      simp [List.find?_cons, h]
    · rw [List.erase_cons_tail (by simpa using hae)]
      simp only [List.find?_cons]
      rw [ih]

theorem lookup_ReserveOrAttach_none (st : ArtifactStore) (fp : String) (now : Nat)
    (h : st.lookup fp = none) :
    (ReserveOrAttach st fp now).2 = true ∧
    ((ReserveOrAttach st fp now).1).lookup fp
      = some ⟨fp, EntryState.Reserved, fp, now, now, 0, none, 0⟩ := by
  unfold ReserveOrAttach
  rw [h]
  simp [ArtifactStore.lookup]

theorem lookup_ReserveOrAttach_some (st : ArtifactStore) (fp : String) (now : Nat)
    (e : ArtifactEntry) (h : st.lookup fp = some e) :
    (ReserveOrAttach st fp now).2 = false ∧
    ∃ e1, ((ReserveOrAttach st fp now).1).lookup fp = some e1 ∧ SameOutcome e e1 := by
  unfold ReserveOrAttach
  rw [h]
  refine ⟨rfl, { e with readers := e.readers + 1 }, ?_, rfl, rfl⟩
  show (st.modify fp _).lookup fp = _
  rw [lookup_modify st fp (fun e => { e with readers := e.readers + 1 }) (fun _ => rfl), h]
  rfl

theorem lookup_Touch (st : ArtifactStore) (fp : String) (now : Nat) (e : ArtifactEntry)
    (h : st.lookup fp = some e) :
    ∃ e1, (Touch st fp now).lookup fp = some e1 ∧ SameOutcome e e1 := by
  refine ⟨{ e with lastAccessAt := now }, ?_, rfl, rfl⟩
  unfold Touch
  rw [lookup_modify st fp (fun e => { e with lastAccessAt := now }) (fun _ => rfl), h]
  rfl

theorem lookup_Release (st : ArtifactStore) (fp : String) (e : ArtifactEntry)
    (h : st.lookup fp = some e) :
    ∃ e1, (Release st fp).lookup fp = some e1 ∧ SameOutcome e e1 := by
  refine ⟨{ e with readers := e.readers - 1 }, ?_, rfl, rfl⟩
  unfold Release
  rw [lookup_modify st fp (fun e => { e with readers := e.readers - 1 }) (fun _ => rfl), h]
  rfl

theorem SameOutcome.trans {a b c : ArtifactEntry} (h1 : SameOutcome a b)
    (h2 : SameOutcome b c) : SameOutcome a c :=
  ⟨h2.1.trans h1.1, h2.2.trans h1.2⟩

theorem lookup_consumeEntry (st : ArtifactStore) (fp : String) (now : Nat)
    (e : ArtifactEntry) (h : st.lookup fp = some e) :
    ∃ e1, (consumeEntry fp st e now).lookup fp = some e1 ∧ SameOutcome e e1 := by
  unfold consumeEntry
  split
  · obtain ⟨e0, h0, hs0⟩ := lookup_Touch st fp now e h
    obtain ⟨e1, h1, hs1⟩ := lookup_Release _ fp e0 h0
    exact ⟨e1, h1, hs0.trans hs1⟩
  · exact lookup_Release _ fp e h

theorem lookup_completeBuild (o : Orchestrator) (st : ArtifactStore) (fp : String)
    (log : BuildLog) (size : Nat) (e : ArtifactEntry) (h : st.lookup fp = some e)
    (hr : e.state = EntryState.Reserved) :
    ∃ e1, (completeBuild o fp st log size).lookup fp = some e1 ∧
      e1.state ≠ EntryState.Reserved ∧ e1.buildLog = some log := by
  refine ⟨{ e with state := if decide (o.classify log = OutcomeKind.success) = true
                     then EntryState.Ready else EntryState.Failed,
                   sizeBytes := size, buildLog := some log }, ?_, ?_, rfl⟩
  · unfold completeBuild Complete
    rw [lookup_modify st fp _ (fun e => by split <;> rfl), h]
    simp [hr]
  · by_cases hk : o.classify log = OutcomeKind.success <;> simp [hk]

/-- What a waiter is handed for an entry with a log. -/
theorem cachedResult_of_log (o : Orchestrator) (e : ArtifactEntry) (log : BuildLog)
    (h : e.buildLog = some log) : cachedResult o e = resultOf (o.classify log) log := by
  simp [cachedResult, h]

/-- What a waiter is handed for a terminal entry is never `Timeout`. -/
theorem cachedResult_ne_timeout (o : Orchestrator) (e : ArtifactEntry) :
    cachedResult o e ≠ ExecResult.timeout := by
  unfold cachedResult
  cases e.buildLog with
  | none => simp
  | some log =>
    simp only
    cases o.classify log <;> simp [resultOf]

/-- A step of the janitor that evicts no entry of the fingerprint leaves the entry of the
fingerprint alone. -/
theorem lookup_storeStep_janitor (cfg : JanitorConfig) (sys : StoreSys) (a : StoreAction)
    (ha : a.byJanitor = true) (fp : String)
    (hne : ∀ e ∈ (storeStep cfg sys a).evicted, e.fingerprint ≠ fp) :
    (storeStep cfg sys a).store.lookup fp = sys.store.lookup fp := by
  cases a with
  | sweepList => rfl
  | sweepEvict =>
    revert hne
    unfold storeStep
    cases hp : sys.pending with
    | nil => intro _; rfl
    | cons c rest =>
      simp only
      rcases evictCandidate_spec sys.store c with ⟨h1, h2⟩ | ⟨e1, h1, _, _, _, h5⟩
      · rw [h1]
        simp only [h2]
        intro _
        trivial
      · rw [h1]
        simp only [h5]
        intro hne
        exact lookup_erase_ne _ _ _ (hne e1 (by simp))
  | reserveOrAttach fp => cases ha
  | complete fp ok size log => cases ha
  | touch fp => cases ha
  | release fp => cases ha
  | tick => cases ha

/-- A step of the store only adds to the log of evictions. -/
theorem storeStep_evicted_append (cfg : JanitorConfig) (sys : StoreSys) (a : StoreAction) :
    ∃ l, (storeStep cfg sys a).evicted = sys.evicted ++ l := by
  cases a with
  | sweepEvict =>
    unfold storeStep
    cases hp : sys.pending with
    | nil => exact ⟨[], by simp⟩
    | cons c rest =>
      simp only
      split
      · exact ⟨_, rfl⟩
      · exact ⟨[], by simp⟩
  | _ => exact ⟨[], by simp [storeStep]⟩

/-- A step of the calls only adds to the log of evictions. -/
theorem buildStep_evicted {o : Orchestrator} {fp : String} {s s1 : BuildSys}
    {a : BuildAction} (h : buildStep o fp s a = some s1) :
    ∃ l, s1.sys.evicted = s.sys.evicted ++ l := by
  cases a with
  | janitor a =>
    simp only [buildStep] at h
    split at h
    · cases h
      exact storeStep_evicted_append _ _ _
    · cases h
  | tick =>
    simp only [buildStep] at h
    cases h
    exact storeStep_evicted_append _ _ _
  | call i =>
    simp only [buildStep] at h
    repeat' split at h
    all_goals cases h
    all_goals exact ⟨[], by simp [BuildSys.advance]⟩
  | ownerTimesOut i log =>
    simp only [buildStep] at h
    repeat' split at h
    all_goals cases h
    all_goals exact ⟨[], by simp [BuildSys.advance]⟩
  | processExits i log size =>
    simp only [buildStep] at h
    repeat' split at h
    all_goals cases h
    all_goals exact ⟨[], by simp [BuildSys.advance]⟩
  | processKilled i log =>
    simp only [buildStep] at h
    repeat' split at h
    all_goals cases h
    all_goals exact ⟨[], by simp [BuildSys.advance]⟩
  | awaitWake i =>
    simp only [buildStep] at h
    repeat' split at h
    all_goals cases h
    all_goals exact ⟨[], by simp [BuildSys.advance]⟩
  | awaitTimeout i =>
    simp only [buildStep] at h
    repeat' split at h
    all_goals cases h
    all_goals exact ⟨[], by simp [BuildSys.advance]⟩
  | otherAcquires =>
    simp only [buildStep] at h
    repeat' split at h
    all_goals cases h
    all_goals exact ⟨[], by simp⟩
  | otherReleases =>
    simp only [buildStep] at h
    repeat' split at h
    all_goals cases h
    all_goals exact ⟨[], by simp⟩

/-- If the janitor has evicted no entry of the fingerprint after a step, it had evicted
none before. -/
theorem NoEvict.of_buildStep {o : Orchestrator} {fp : String} {s s1 : BuildSys}
    {a : BuildAction} (h : buildStep o fp s a = some s1) (hne : NoEvict fp s1) :
    NoEvict fp s := by
  obtain ⟨l, hl⟩ := buildStep_evicted h
  intro e he
  apply hne e
  rw [hl]
  exact List.mem_append_left _ he

/-- If the janitor has evicted no entry of the fingerprint after a run, it had evicted
none before. -/
theorem NoEvict.of_buildRun {o : Orchestrator} {fp : String} (acts : List BuildAction) :
    ∀ {s s1 : BuildSys}, buildRun o fp s acts = some s1 → NoEvict fp s1 → NoEvict fp s := by
  induction acts with
  | nil =>
    intro s s1 h hne
    simp only [buildRun, Option.some.injEq] at h
    exact h ▸ hne
  | cons a rest ih =>
    intro s s1 h hne
    simp only [buildRun] at h
    cases hs : buildStep o fp s a with
    | none => simp [hs] at h
    | some s2 =>
      rw [hs] at h
      exact NoEvict.of_buildStep hs (ih h hne)

/-- Moving a call on leaves the deadlines alone. -/
theorem map_deadline_set (l : List Caller) (i : Nat) (c : Caller) (pc : CallerPc)
    (h : l[i]? = some c) :
    (l.set i { c with pc := pc }).map Caller.deadline = l.map Caller.deadline := by
  induction l generalizing i with
  | nil => rfl
  | cons a rest ih =>
    cases i with
    | zero =>
      simp only [List.getElem?_cons_zero, Option.some.injEq] at h
      subst h
      rfl
    | succ i =>
      simp only [List.getElem?_cons_succ] at h
      simp only [List.set_cons_succ, List.map_cons, ih i h]

/-- A step of the calls leaves the deadlines alone. -/
theorem buildStep_deadlines {o : Orchestrator} {fp : String} {s s1 : BuildSys}
    {a : BuildAction} (h : buildStep o fp s a = some s1) :
    s1.callers.map Caller.deadline = s.callers.map Caller.deadline := by
  cases a with
  | janitor a =>
    simp only [buildStep] at h
    split at h
    · cases h
      rfl
    · cases h
  | tick =>
    simp only [buildStep] at h
    cases h
    rfl
  | call i =>
    simp only [buildStep] at h
    split at h
    · rename_i c hc
      split at h
      · cases h
        exact map_deadline_set _ _ _ _ hc
      · split at h
        · cases h
          exact map_deadline_set _ _ _ _ hc
        · cases h
      · cases h
    · cases h
  | ownerTimesOut i log =>
    simp only [buildStep] at h
    split at h
    · rename_i c hc
      split at h
      · cases h
        exact map_deadline_set _ _ _ _ hc
      · cases h
    · cases h
  | processExits i log size =>
    simp only [buildStep] at h
    split at h
    · rename_i c hc
      split at h
      · cases h
        exact map_deadline_set _ _ _ _ hc
      · cases h
    · cases h
  | processKilled i log =>
    simp only [buildStep] at h
    split at h
    · rename_i c hc
      split at h
      · cases h
        exact map_deadline_set _ _ _ _ hc
      · cases h
    · cases h
  | awaitWake i =>
    simp only [buildStep] at h
    split at h
    · rename_i c e hc hl
      split at h
      · cases h
        exact map_deadline_set _ _ _ _ hc
      · cases h
    · cases h
  | awaitTimeout i =>
    simp only [buildStep] at h
    split at h
    · rename_i c hc
      split at h
      · cases h
        exact map_deadline_set _ _ _ _ hc
      · cases h
    · cases h
  | otherAcquires =>
    simp only [buildStep] at h
    split at h
    · cases h
      rfl
    · cases h
  | otherReleases =>
    simp only [buildStep] at h
    split at h
    · cases h
      rfl
    · cases h

/-- A run of the calls leaves the deadlines alone. -/
theorem buildRun_deadlines {o : Orchestrator} {fp : String} (acts : List BuildAction) :
    ∀ {s s1 : BuildSys}, buildRun o fp s acts = some s1 →
      s1.callers.map Caller.deadline = s.callers.map Caller.deadline := by
  induction acts with
  | nil =>
    intro s s1 h
    simp only [buildRun, Option.some.injEq] at h
    rw [h]
  | cons a rest ih =>
    intro s s1 h
    simp only [buildRun] at h
    cases hs : buildStep o fp s a with
    | none => simp [hs] at h
    | some s2 =>
      rw [hs] at h
      rw [ih h, buildStep_deadlines hs]

theorem OwnerOk.owner_of_same {o : Orchestrator} {e e1 : ArtifactEntry} {n m : Nat}
    {c : Caller} (h : OwnerOk o e n m c) (hs : SameOutcome e e1) : OwnerOk o e1 n m c := by
  unfold OwnerOk cachedResult at *
  rw [hs.1, hs.2]
  exact h

theorem WaiterOk.waiter_of_same {o : Orchestrator} {e e1 : ArtifactEntry} {c : Caller}
    (h : WaiterOk o e c) (hs : SameOutcome e e1) : WaiterOk o e1 c := by
  unfold WaiterOk cachedResult at *
  rw [hs.1, hs.2]
  exact h

/-- While the entry is `Reserved` no waiter has been handed what it records, so what holds
of a waiter holds whatever the entry becomes. -/
theorem WaiterOk.waiter_of_reserved {o : Orchestrator} {e e1 : ArtifactEntry} {c : Caller}
    (h : WaiterOk o e c) (hr : e.state = EntryState.Reserved) : WaiterOk o e1 c := by
  rcases h with h | h | ⟨r, t, h, hres⟩
  · exact Or.inl h
  · exact Or.inr (Or.inl h)
  · rcases hres with hres | ⟨hne, _⟩
    · exact Or.inr (Or.inr ⟨r, t, h, Or.inl hres⟩)
    · exact absurd hr hne

theorem OwnerOk.owner_pc_ne {o : Orchestrator} {e : ArtifactEntry} {n m : Nat} {c : Caller}
    (h : OwnerOk o e n m c) : c.pc ≠ CallerPc.start ∧ c.pc ≠ CallerPc.waiting := by
  rcases h with ⟨h, _⟩ | ⟨h, _⟩ | ⟨r, t, h, _⟩ <;> rw [h] <;> simp

theorem WaiterOk.waiter_pc_ne {o : Orchestrator} {e : ArtifactEntry} {c : Caller}
    (h : WaiterOk o e c) : c.pc ≠ CallerPc.owner ∧ c.pc ≠ CallerPc.building := by
  rcases h with h | h | ⟨r, t, h, _⟩ <;> rw [h] <;> simp

theorem getElem?_set_of_some {l : List Caller} {i : Nat} {c c1 : Caller}
    (h : l[i]? = some c) : (l.set i c1)[i]? = some c1 := by
  rw [List.getElem?_set_self', h]
  rfl

/-- A call that queues for a build slot or whose child process runs is the reservation
owner, and the fingerprint had no entry when the calls began. -/
theorem InvCore.owner_of_pc {o : Orchestrator} {cold : Bool} {entry : Option ArtifactEntry}
    {callers : List Caller} {sp stv i : Nat} {c : Caller}
    (hi : InvCore o cold entry callers sp stv) (hc : callers[i]? = some c)
    (hpc : c.pc = CallerPc.owner ∨ c.pc = CallerPc.building) :
    ∃ e, entry = some e ∧ cold = true ∧ OwnerOk o e sp stv c ∧
      ∀ (j : Nat) (cj : Caller), j ≠ i → callers[j]? = some cj → WaiterOk o e cj := by
  cases entry with
  | none =>
    simp only [InvCore] at hi
    have := hi.2.1 c (List.mem_iff_getElem?.2 ⟨i, hc⟩)
    rcases hpc with h | h <;> rw [h] at this <;> cases this
  | some e =>
    simp only [InvCore] at hi
    rcases hi with ⟨_, _, _, hall⟩ | ⟨hcold, k, ck, hk, hok, hrest⟩
    · have hw := (hall c (List.mem_iff_getElem?.2 ⟨i, hc⟩)).waiter_pc_ne
      rcases hpc with h | h
      · exact absurd h hw.1
      · exact absurd h hw.2
    · by_cases hik : i = k
      · subst hik
        rw [hc] at hk
        injection hk with hk
        subst hk
        exact ⟨e, rfl, hcold, hok, hrest⟩
      · have hw := (hrest i c hik hc).waiter_pc_ne
        rcases hpc with h | h
        · exact absurd h hw.1
        · exact absurd h hw.2

/-- A step that keeps what the entry records of the build, and moves on a call that does
not own the reservation, keeps the invariant. -/
theorem InvCore.of_waiter_step {o : Orchestrator} {cold : Bool} {e e1 : ArtifactEntry}
    {callers : List Caller} {sp stv i : Nat} {c : Caller} {pc1 : CallerPc}
    (hi : InvCore o cold (some e) callers sp stv) (hs : SameOutcome e e1)
    (hc : callers[i]? = some c)
    (hnot : c.pc = CallerPc.start ∨ c.pc = CallerPc.waiting)
    (hw : WaiterOk o e1 { c with pc := pc1 }) :
    InvCore o cold (some e1) (callers.set i { c with pc := pc1 }) sp stv := by
  simp only [InvCore] at hi ⊢
  rcases hi with ⟨hcold, hsp, hstv, hall⟩ | ⟨hcold, k, ck, hk, hok, hrest⟩
  · refine Or.inl ⟨hcold, hsp, hstv, ?_⟩
    intro c1 hc1
    rcases List.mem_or_eq_of_mem_set hc1 with h | h
    · exact (hall c1 h).waiter_of_same hs
    · rw [h]
      exact hw
  · have hik : i ≠ k := by
      intro hik
      subst hik
      rw [hc] at hk
      injection hk with hk
      subst hk
      rcases hnot with h | h
      · exact hok.owner_pc_ne.1 h
      · exact hok.owner_pc_ne.2 h
    refine Or.inr ⟨hcold, k, ck, ?_, hok.owner_of_same hs, ?_⟩
    · rw [List.getElem?_set_ne hik]
      exact hk
    · intro j cj hjk hj
      by_cases hji : i = j
      · subst hji
        rw [getElem?_set_of_some hc] at hj
        injection hj with hj
        subst hj
        exact hw
      · rw [List.getElem?_set_ne hji] at hj
        exact (hrest j cj hjk hj).waiter_of_same hs

/-- A step that moves the reservation owner on keeps the invariant, if what holds of the
owner holds after it, and what holds of the waiters still holds. -/
theorem InvCore.of_owner_step {o : Orchestrator} {cold : Bool} {e1 : ArtifactEntry}
    {callers : List Caller} {sp1 stv1 i : Nat} {c : Caller} {pc1 : CallerPc}
    (hcold : cold = true) (hc : callers[i]? = some c)
    (hok : OwnerOk o e1 sp1 stv1 { c with pc := pc1 })
    (hrest : ∀ (j : Nat) (cj : Caller), j ≠ i → callers[j]? = some cj → WaiterOk o e1 cj) :
    InvCore o cold (some e1) (callers.set i { c with pc := pc1 }) sp1 stv1 := by
  simp only [InvCore]
  refine Or.inr ⟨hcold, i, _, getElem?_set_of_some hc, hok, ?_⟩
  intro j cj hji hj
  rw [List.getElem?_set_ne (Ne.symm hji)] at hj
  exact hrest j cj hji hj

/-- What holds of the owner while it queues for a build slot. -/
theorem OwnerOk.of_owner {o : Orchestrator} {e : ArtifactEntry} {n m : Nat} {c : Caller}
    (h : OwnerOk o e n m c) (hpc : c.pc = CallerPc.owner) :
    e.state = EntryState.Reserved ∧ n = 0 ∧ m = 0 := by
  rcases h with ⟨_, h⟩ | ⟨hb, _⟩ | ⟨r, t, hb, _⟩
  · exact h
  · rw [hpc] at hb
    cases hb
  · rw [hpc] at hb
    cases hb

/-- What holds of the owner while its child process runs. -/
theorem OwnerOk.of_building {o : Orchestrator} {e : ArtifactEntry} {n m : Nat} {c : Caller}
    (h : OwnerOk o e n m c) (hpc : c.pc = CallerPc.building) :
    e.state = EntryState.Reserved ∧ n = 1 ∧ m = 0 := by
  rcases h with ⟨hb, _⟩ | ⟨_, h⟩ | ⟨r, t, hb, _⟩
  · rw [hpc] at hb
    cases hb
  · exact h
  · rw [hpc] at hb
    cases hb

/-- Every step of the concurrent calls, of the janitor and of the other builds keeps the
invariant, as long as the janitor evicts no entry of the fingerprint. -/
theorem BuildInv.preserved {o : Orchestrator} {fp : String} {cold : Bool} {s s1 : BuildSys}
    {a : BuildAction} (hi : BuildInv o fp cold s) (h : buildStep o fp s a = some s1)
    (hne : NoEvict fp s1) : BuildInv o fp cold s1 := by
  unfold BuildInv at hi ⊢
  cases a with
  | tick =>
    simp only [buildStep] at h
    cases h
    exact hi
  | otherAcquires =>
    simp only [buildStep] at h
    split at h
    · cases h
      exact hi
    · cases h
  | otherReleases =>
    simp only [buildStep] at h
    split at h
    · cases h
      exact hi
    · cases h
  | janitor a =>
    simp only [buildStep] at h
    split at h
    · rename_i ha
      cases h
      have hl := lookup_storeStep_janitor o.janitor s.sys a ha fp hne
      show InvCore o cold ((storeStep o.janitor s.sys a).store.lookup fp) s.callers
        s.spawned s.starved
      rw [hl]
      exact hi
    · cases h
  | call i =>
    simp only [buildStep] at h
    split at h
    · rename_i c hc
      split at h
      · rename_i hpc
        cases h
        show InvCore o cold (ArtifactStore.lookup (ReserveOrAttach s.sys.store fp s.sys.now).1 fp)
          (s.callers.set i { c with pc := if (ReserveOrAttach s.sys.store fp s.sys.now).2
            then CallerPc.owner else CallerPc.waiting }) s.spawned s.starved
        cases hl : s.sys.store.lookup fp with
        | none =>
          obtain ⟨h2, h1⟩ := lookup_ReserveOrAttach_none s.sys.store fp s.sys.now hl
          rw [hl] at hi
          simp only [InvCore] at hi
          rw [h1, h2]
          simp only [if_true]
          exact InvCore.of_owner_step hi.1 hc (Or.inl ⟨rfl, rfl, hi.2.2.1, hi.2.2.2⟩)
            (fun j cj _ hj => Or.inl (hi.2.1 cj (List.mem_iff_getElem?.2 ⟨j, hj⟩)))
        | some e =>
          obtain ⟨h2, e1, h1, hs⟩ := lookup_ReserveOrAttach_some s.sys.store fp s.sys.now e hl
          rw [hl] at hi
          rw [h1, h2]
          simp only [Bool.false_eq_true, if_false]
          exact hi.of_waiter_step hs hc (Or.inl hpc) (Or.inr (Or.inl rfl))
      · rename_i hpc
        split at h
        · cases h
          obtain ⟨e, hl, hcold, hok, hrest⟩ := hi.owner_of_pc hc (Or.inl hpc)
          obtain ⟨hr, hsp, hstv⟩ := hok.of_owner hpc
          show InvCore o cold (s.sys.store.lookup fp)
            (s.callers.set i { c with pc := CallerPc.building }) (s.spawned + 1) s.starved
          rw [hl]
          exact InvCore.of_owner_step hcold hc (Or.inr (Or.inl ⟨rfl, hr, by omega, hstv⟩)) hrest
        · cases h
      · cases h
    · cases h
  | ownerTimesOut i log =>
    simp only [buildStep] at h
    split at h
    · rename_i c hc
      split at h
      · rename_i hg
        cases h
        obtain ⟨e, hl, hcold, hok, hrest⟩ := hi.owner_of_pc hc (Or.inl hg.1)
        obtain ⟨hr, hsp, hstv⟩ := hok.of_owner hg.1
        obtain ⟨e1, hl1, ht, _⟩ := lookup_completeBuild o s.sys.store fp log 0 e hl hr
        show InvCore o cold (ArtifactStore.lookup (completeBuild o fp s.sys.store log 0) fp)
          (s.callers.set i { c with pc := CallerPc.returned ExecResult.timeout s.sys.now })
          s.spawned (s.starved + 1)
        rw [hl1]
        exact InvCore.of_owner_step hcold hc
          (Or.inr (Or.inr ⟨_, _, rfl, ht, by omega, Or.inr ⟨rfl, hg.2.1⟩⟩))
          (fun j cj hji hj => (hrest j cj hji hj).waiter_of_reserved hr)
      · cases h
    · cases h
  | processExits i log size =>
    simp only [buildStep] at h
    split at h
    · rename_i c hc
      split at h
      · rename_i hg
        cases h
        obtain ⟨e, hl, hcold, hok, hrest⟩ := hi.owner_of_pc hc (Or.inr hg.1)
        obtain ⟨hr, hsp, hstv⟩ := hok.of_building hg.1
        obtain ⟨e1, hl1, ht, hlog⟩ := lookup_completeBuild o s.sys.store fp log size e hl hr
        show InvCore o cold (ArtifactStore.lookup (completeBuild o fp s.sys.store log size) fp)
          (s.callers.set i
            { c with pc := CallerPc.returned (resultOf (o.classify log) log) s.sys.now })
          s.spawned s.starved
        rw [hl1]
        exact InvCore.of_owner_step hcold hc
          (Or.inr (Or.inr ⟨_, _, rfl, ht, by omega,
            Or.inl ⟨(cachedResult_of_log o e1 log hlog).symm, hg.2⟩⟩))
          (fun j cj hji hj => (hrest j cj hji hj).waiter_of_reserved hr)
      · cases h
    · cases h
  | processKilled i log =>
    simp only [buildStep] at h
    split at h
    · rename_i c hc
      split at h
      · rename_i hg
        cases h
        obtain ⟨e, hl, hcold, hok, hrest⟩ := hi.owner_of_pc hc (Or.inr hg.1)
        obtain ⟨hr, hsp, hstv⟩ := hok.of_building hg.1
        obtain ⟨e1, hl1, ht, _⟩ := lookup_completeBuild o s.sys.store fp log 0 e hl hr
        show InvCore o cold (ArtifactStore.lookup (completeBuild o fp s.sys.store log 0) fp)
          (s.callers.set i { c with pc := CallerPc.returned ExecResult.timeout s.sys.now })
          s.spawned s.starved
        rw [hl1]
        exact InvCore.of_owner_step hcold hc
          (Or.inr (Or.inr ⟨_, _, rfl, ht, by omega, Or.inr ⟨rfl, hg.2.1⟩⟩))
          (fun j cj hji hj => (hrest j cj hji hj).waiter_of_reserved hr)
      · cases h
    · cases h
  | awaitWake i =>
    simp only [buildStep] at h
    split at h
    · rename_i c e hc hl
      split at h
      · rename_i hg
        cases h
        obtain ⟨e1, hl1, hs⟩ := lookup_consumeEntry s.sys.store fp s.sys.now e hl
        rw [hl] at hi
        show InvCore o cold (ArtifactStore.lookup (consumeEntry fp s.sys.store e s.sys.now) fp)
          (s.callers.set i { c with pc := CallerPc.returned (cachedResult o e) s.sys.now })
          s.spawned s.starved
        rw [hl1]
        refine hi.of_waiter_step hs hc (Or.inr hg.1)
          (Or.inr (Or.inr ⟨_, _, rfl, Or.inr ⟨?_, ?_, hg.2.2⟩⟩))
        · rw [hs.1]
          exact hg.2.1
        · unfold cachedResult
          rw [hs.2]
      · cases h
    · cases h
  | awaitTimeout i =>
    simp only [buildStep] at h
    split at h
    · rename_i c hc
      split at h
      · rename_i hg
        cases h
        show InvCore o cold (ArtifactStore.lookup (Release s.sys.store fp) fp)
          (s.callers.set i { c with pc := CallerPc.returned ExecResult.timeout s.sys.now })
          s.spawned s.starved
        cases hl : s.sys.store.lookup fp with
        | none =>
          rw [hl] at hi
          simp only [InvCore] at hi
          have := hi.2.1 c (List.mem_iff_getElem?.2 ⟨i, hc⟩)
          rw [hg.1] at this
          cases this
        | some e =>
          obtain ⟨e1, hl1, hs⟩ := lookup_Release s.sys.store fp e hl
          rw [hl] at hi
          rw [hl1]
          exact hi.of_waiter_step hs hc (Or.inr hg.1)
            (Or.inr (Or.inr ⟨_, _, rfl, Or.inl ⟨rfl, hg.2⟩⟩))
      · cases h
    · cases h

/-- Every state of a run in which the janitor evicts no entry of the fingerprint satisfies
the invariant. -/
theorem BuildInv.of_run {o : Orchestrator} {fp : String} {cold : Bool}
    (acts : List BuildAction) :
    ∀ {s s1 : BuildSys}, BuildInv o fp cold s → buildRun o fp s acts = some s1 →
      NoEvict fp s1 → BuildInv o fp cold s1 := by
  induction acts with
  | nil =>
    intro s s1 hi h _
    simp only [buildRun, Option.some.injEq] at h
    exact h ▸ hi
  | cons a rest ih =>
    intro s s1 hi h hne
    simp only [buildRun] at h
    cases hs : buildStep o fp s a with
    | none => simp [hs] at h
    | some s2 =>
      rw [hs] at h
      exact ih (hi.preserved hs (NoEvict.of_buildRun rest h hne)) h hne

theorem BuildInv.of_init (o : Orchestrator) (fp : String) (st : ArtifactStore)
    (deadlines : List Nat) :
    BuildInv o fp (st.lookup fp).isNone (BuildSys.init st deadlines) := by
  unfold BuildInv
  simp only [BuildSys.init]
  cases hl : st.lookup fp with
  | none =>
    simp only [InvCore, Option.isNone_none, true_and, and_true]
    intro c hc
    simp only [List.mem_map] at hc
    obtain ⟨d, _, rfl⟩ := hc
    rfl
  | some e =>
    simp only [InvCore, Option.isNone_some, true_and]
    refine Or.inl ?_
    intro c hc
    simp only [List.mem_map] at hc
    obtain ⟨d, _, rfl⟩ := hc
    exact Or.inl rfl

/-- In a state of the invariant at most one child process has been spawned, and none if
the fingerprint had an entry when the calls began. -/
theorem InvCore.spawned_le {o : Orchestrator} {cold : Bool} {entry : Option ArtifactEntry}
    {callers : List Caller} {sp stv : Nat} (hi : InvCore o cold entry callers sp stv) :
    sp ≤ 1 ∧ (cold = false → sp = 0) := by
  cases entry with
  | none =>
    simp only [InvCore] at hi
    exact ⟨by omega, fun _ => hi.2.2.1⟩
  | some e =>
    simp only [InvCore] at hi
    rcases hi with ⟨_, hsp, _, _⟩ | ⟨hcold, k, ck, _, hok, _⟩
    · exact ⟨by omega, fun _ => hsp⟩
    · refine ⟨?_, fun h => by rw [hcold] at h; cases h⟩
      rcases hok with ⟨_, _, h, _⟩ | ⟨_, _, h, _⟩ | ⟨_, _, _, _, h, _⟩ <;> omega

/-- In a state of the invariant in which every call has returned, and there is a call:
if the fingerprint had no entry when the calls began, one child process has been spawned,
or none and the reservation owner gave up queueing for a build slot. -/
theorem InvCore.spawned_eq {o : Orchestrator} {entry : Option ArtifactEntry}
    {callers : List Caller} {sp stv : Nat} (hi : InvCore o true entry callers sp stv)
    (hne : callers ≠ []) (hall : ∀ c ∈ callers, c.hasReturned = true) :
    sp + stv = 1 := by
  cases entry with
  | none =>
    simp only [InvCore] at hi
    obtain ⟨c, hc⟩ := List.exists_mem_of_ne_nil _ hne
    have h1 := hall c hc
    have h2 := hi.2.1 c hc
    simp [Caller.hasReturned, h2] at h1
  | some e =>
    simp only [InvCore] at hi
    rcases hi with ⟨hcold, _⟩ | ⟨_, k, ck, hk, hok, _⟩
    · cases hcold
    · have h1 := hall ck (List.mem_iff_getElem?.2 ⟨k, hk⟩)
      rcases hok with ⟨h, _⟩ | ⟨h, _⟩ | ⟨_, _, _, _, h, _⟩
      · simp [Caller.hasReturned, h] at h1
      · simp [Caller.hasReturned, h] at h1
      · exact h

/-- In a state of the invariant, a call that has returned has returned `Timeout` at or
after its deadline, or before its deadline what the terminal entry records. -/
theorem InvCore.returned_eq {o : Orchestrator} {cold : Bool} {entry : Option ArtifactEntry}
    {callers : List Caller} {sp stv : Nat} (hi : InvCore o cold entry callers sp stv)
    (c : Caller) (hc : c ∈ callers) (r : ExecResult) (t : Nat)
    (hr : c.pc = CallerPc.returned r t) :
    (r = ExecResult.timeout ∧ c.deadline ≤ t) ∨
    (∃ e, entry = some e ∧ r = cachedResult o e ∧ t < c.deadline) := by
  have hw : ∀ e, WaiterOk o e c →
      (r = ExecResult.timeout ∧ c.deadline ≤ t) ∨ (r = cachedResult o e ∧ t < c.deadline) := by
    intro e hw
    rcases hw with h | h | ⟨r1, t1, h, hres⟩
    · rw [hr] at h
      cases h
    · rw [hr] at h
      cases h
    · rw [hr] at h
      injection h with h1 h2
      subst h1
      subst h2
      rcases hres with h | ⟨_, h⟩
      · exact Or.inl h
      · exact Or.inr h
  cases entry with
  | none =>
    simp only [InvCore] at hi
    have := hi.2.1 c hc
    rw [hr] at this
    cases this
  | some e =>
    simp only [InvCore] at hi
    have hgoal : (r = ExecResult.timeout ∧ c.deadline ≤ t) ∨
        (r = cachedResult o e ∧ t < c.deadline) := by
      rcases hi with ⟨_, _, _, hall⟩ | ⟨_, k, ck, hk, hok, hrest⟩
      · exact hw e (hall c hc)
      · obtain ⟨j, hj⟩ := List.mem_iff_getElem?.1 hc
        by_cases hjk : j = k
        · subst hjk
          rw [hj] at hk
          injection hk with hk
          subst hk
          rcases hok with ⟨h, _⟩ | ⟨h, _⟩ | ⟨r1, t1, h, _, _, hres⟩
          · rw [hr] at h
            cases h
          · rw [hr] at h
            cases h
          · rw [hr] at h
            injection h with h1 h2
            subst h1
            subst h2
            rcases hres with h | h
            · exact Or.inr h
            · exact Or.inl h
        · exact hw e (hrest j c hjk hj)
    rcases hgoal with h | h
    · exact Or.inl h
    · exact Or.inr ⟨e, rfl, h⟩

/-- No call that has not reached `ReserveOrAttach` holds a build slot. -/
theorem filter_building_start (l : List Nat) :
    ((l.map fun d => (⟨d, CallerPc.start⟩ : Caller)).filter
      fun c => c.pc = CallerPc.building) = [] := by
  induction l with
  | nil => rfl
  | cons d rest ih =>
    simp only [List.map_cons, List.filter_cons]
    rw [ih]
    simp

/-- Once the entry is terminal, the calls that have not started yet can all attach and
return what it records, before their deadlines, without a new child process and without a
step of the janitor. -/
theorem buildRun_waiters (o : Orchestrator) (fp : String) (r : ExecResult) (now : Nat) :
    ∀ (post : List Nat) (s : BuildSys) (pre : List Caller) (e : ArtifactEntry),
      s.callers = pre ++ post.map (fun d => ⟨d, CallerPc.start⟩) →
      s.sys.store.lookup fp = some e → e.state ≠ EntryState.Reserved →
      cachedResult o e = r → s.sys.now = now → (∀ d ∈ post, now < d) →
      ∃ s2, buildRun o fp s (waitersSchedule pre.length post.length) = some s2 ∧
        s2.spawned = s.spawned ∧ s2.sys.evicted = s.sys.evicted ∧
        s2.callers = pre ++ post.map (fun d => ⟨d, CallerPc.returned r now⟩) := by
  intro post
  induction post with
  | nil =>
    intro s pre e hcs _ _ _ _ _
    exact ⟨s, rfl, rfl, rfl, by simpa using hcs⟩
  | cons d post ih =>
    intro s pre e hcs hl hne hr hnow hd
    have hget : s.callers[pre.length]? = some ⟨d, CallerPc.start⟩ := by
      rw [hcs, List.getElem?_append_right (Nat.le_refl _)]
      simp
    obtain ⟨h2, e1, hl1, hs1⟩ := lookup_ReserveOrAttach_some s.sys.store fp s.sys.now e hl
    obtain ⟨sA, hsA⟩ : ∃ sA, sA = s.advance (ReserveOrAttach s.sys.store fp s.sys.now).1
        pre.length ⟨d, CallerPc.start⟩ CallerPc.waiting := ⟨_, rfl⟩
    have hstepA : buildStep o fp s (BuildAction.call pre.length) = some sA := by
      simp only [buildStep, hget, h2, hsA]
      rfl
    have hgetA : sA.callers[pre.length]? = some ⟨d, CallerPc.waiting⟩ := by
      rw [hsA]
      exact getElem?_set_of_some hget
    have hlA : sA.sys.store.lookup fp = some e1 := by
      rw [hsA]
      exact hl1
    have hnowA : sA.sys.now = now := by
      rw [hsA]
      exact hnow
    have hne1 : e1.state ≠ EntryState.Reserved := by
      rw [hs1.1]
      exact hne
    have hr1 : cachedResult o e1 = r := by
      rw [← hr]
      unfold cachedResult
      rw [hs1.2]
    obtain ⟨sB, hsB⟩ : ∃ sB, sB = sA.advance (consumeEntry fp sA.sys.store e1 sA.sys.now)
        pre.length ⟨d, CallerPc.waiting⟩ (CallerPc.returned (cachedResult o e1) sA.sys.now) :=
      ⟨_, rfl⟩
    have hstepB : buildStep o fp sA (BuildAction.awaitWake pre.length) = some sB := by
      have hlt : sA.sys.now < d := by
        rw [hnowA]
        exact hd d (by simp)
      rw [hsB]
      simp [buildStep, hgetA, hlA, hne1, hlt]
    obtain ⟨e2, hl2, hs2⟩ := lookup_consumeEntry sA.sys.store fp sA.sys.now e1 hlA
    have hcsB : sB.callers = (pre ++ [⟨d, CallerPc.returned r now⟩])
        ++ post.map (fun d => ⟨d, CallerPc.start⟩) := by
      rw [hsB, hr1, hnowA, hsA]
      simp only [BuildSys.advance]
      rw [hcs]
      simp
    obtain ⟨s2, hrun, hsp, hev, hcs2⟩ := ih sB (pre ++ [⟨d, CallerPc.returned r now⟩]) e2 hcsB
      (by rw [hsB]; exact hl2) (by rw [hs2.1]; exact hne1)
      (by rw [← hr1]; unfold cachedResult; rw [hs2.2]) (by rw [hsB]; exact hnowA)
      (fun d1 hd1 => hd d1 (List.mem_cons_of_mem _ hd1))
    refine ⟨s2, ?_, ?_, ?_, ?_⟩
    · simp only [List.length_cons, waitersSchedule, buildRun, hstepA, hstepB]
      simpa using hrun
    · rw [hsp, hsB, hsA]
      rfl
    · rw [hev, hsB, hsA]
      rfl
    · rw [hcs2]
      simp

/-- From a store without an entry for the fingerprint, with a build slot and deadlines in
the future, the calls can all return: call 0 becomes the reservation owner, its child
process ends, and every call returns the outcome of that process. -/
theorem buildRun_complete (o : Orchestrator) (fp : String) (st : ArtifactStore) (d0 : Nat)
    (rest : List Nat) (log : BuildLog) (size : Nat) (hfresh : st.lookup fp = none)
    (hceil : 0 < o.ceiling) (hd0 : 0 < d0) (hrest : ∀ d ∈ rest, 0 < d) :
    ∃ s2, buildRun o fp (BuildSys.init st (d0 :: rest))
        (completeSchedule (rest.length + 1) log size) = some s2 ∧
      s2.spawned = 1 ∧ s2.sys.evicted = [] ∧
      s2.callers = (d0 :: rest).map
        (fun d => ⟨d, CallerPc.returned (resultOf (o.classify log) log) 0⟩) := by
  obtain ⟨h2, h1⟩ := lookup_ReserveOrAttach_none st fp 0 hfresh
  obtain ⟨e3, hl3, hne3, hlog3⟩ := lookup_completeBuild o (ReserveOrAttach st fp 0).1 fp
    log size _ h1 rfl
  have hstep1 : buildStep o fp (BuildSys.init st (d0 :: rest)) (BuildAction.call 0)
      = some ⟨⟨0, (ReserveOrAttach st fp 0).1, [], []⟩, 0,
          ⟨d0, CallerPc.owner⟩ :: rest.map (fun d => ⟨d, CallerPc.start⟩), 0, 0⟩ := by
    simp [buildStep, BuildSys.init, BuildSys.advance, h2]
  have hstep2 : buildStep o fp ⟨⟨0, (ReserveOrAttach st fp 0).1, [], []⟩, 0,
        ⟨d0, CallerPc.owner⟩ :: rest.map (fun d => ⟨d, CallerPc.start⟩), 0, 0⟩
        (BuildAction.call 0)
      = some ⟨⟨0, (ReserveOrAttach st fp 0).1, [], []⟩, 0,
          ⟨d0, CallerPc.building⟩ :: rest.map (fun d => ⟨d, CallerPc.start⟩), 1, 0⟩ := by
    have hslots : BuildSys.slotsInUse ⟨⟨0, (ReserveOrAttach st fp 0).1, [], []⟩, 0,
        ⟨d0, CallerPc.owner⟩ :: rest.map (fun d => ⟨d, CallerPc.start⟩), 0, 0⟩ = 0 := by
      simp only [BuildSys.slotsInUse, List.filter_cons, filter_building_start]
      simp
    simp only [buildStep, List.getElem?_cons_zero, hslots]
    rw [if_pos ⟨hd0, hceil⟩]
    rfl
  have hstep3 : buildStep o fp ⟨⟨0, (ReserveOrAttach st fp 0).1, [], []⟩, 0,
        ⟨d0, CallerPc.building⟩ :: rest.map (fun d => ⟨d, CallerPc.start⟩), 1, 0⟩
        (BuildAction.processExits 0 log size)
      = some ⟨⟨0, completeBuild o fp (ReserveOrAttach st fp 0).1 log size, [], []⟩, 0,
          [⟨d0, CallerPc.returned (resultOf (o.classify log) log) 0⟩]
            ++ rest.map (fun d => ⟨d, CallerPc.start⟩), 1, 0⟩ := by
    simp only [buildStep, List.getElem?_cons_zero]
    rw [if_pos ⟨trivial, hd0⟩]
    rfl
  obtain ⟨s2, hrun, hsp, hev, hcs⟩ := buildRun_waiters o fp (resultOf (o.classify log) log) 0
    rest
    ⟨⟨0, completeBuild o fp (ReserveOrAttach st fp 0).1 log size, [], []⟩, 0,
      [⟨d0, CallerPc.returned (resultOf (o.classify log) log) 0⟩]
        ++ rest.map (fun d => ⟨d, CallerPc.start⟩), 1, 0⟩
    [⟨d0, CallerPc.returned (resultOf (o.classify log) log) 0⟩] e3 rfl hl3 hne3
    (cachedResult_of_log o e3 log hlog3) rfl hrest
  refine ⟨s2, ?_, hsp, hev, ?_⟩
  · simp only [completeSchedule, List.cons_append, List.nil_append, buildRun, hstep1,
      hstep2, hstep3, Nat.add_sub_cancel]
    simpa using hrun
  · rw [hcs]
    rfl

/-- Counterexample to C3 as stated: concurrent calls of `Execute` with identical source
and toolchain that do not cause exactly one child-process invocation, or do not all
receive the same result.  (1) Two calls; the deadline of the second expires while it
waits for the build of the first: one child process, and the callers receive the result
and `Timeout`.  (2) Two calls; the janitor evicts the entry of the first build before the
second call reaches `ReserveOrAttach`: two child processes, and two results.  (3) The
fingerprint is cached already: no child process.  (4) One call; the builds of other
fingerprints hold every build slot until its deadline has passed: no child process.
(5) Two calls; the child process of the first is killed at its deadline: the owner
receives `Timeout`, the waiter the failure. -/
theorem single_flight_counterexample :
    (∃ s, buildRun exampleOrchestrator "f" (BuildSys.init [] [100, 1]) waiterTimesOut
        = some s ∧ s.spawned = 1 ∧ s.sys.evicted = [] ∧
      s.callers.map (fun c => c.pc)
        = [CallerPc.returned (ExecResult.result exampleLog) 2,
            CallerPc.returned ExecResult.timeout 1]) ∧
    (∃ s, buildRun exampleOrchestrator "f" (BuildSys.init [] [100, 100]) evictedBetween
        = some s ∧ s.spawned = 2 ∧
      s.callers.map (fun c => c.pc)
        = [CallerPc.returned (ExecResult.result ⟨"out-A", "", 0⟩) 0,
            CallerPc.returned (ExecResult.result ⟨"out-B", "", 0⟩) 11]) ∧
    (∃ s, buildRun exampleOrchestrator "f" (BuildSys.init cachedStore [100])
        [BuildAction.call 0, BuildAction.awaitWake 0] = some s ∧
      s.spawned = 0 ∧ s.sys.evicted = [] ∧
      s.callers.map (fun c => c.pc)
        = [CallerPc.returned (ExecResult.result exampleLog) 0]) ∧
    (∃ s, buildRun exampleOrchestrator "f" (BuildSys.init [] [2]) noSlotInTime = some s ∧
      s.spawned = 0 ∧ s.sys.evicted = [] ∧
      s.callers.map (fun c => c.pc) = [CallerPc.returned ExecResult.timeout 2]) ∧
    (∃ s, buildRun exampleOrchestrator "f" (BuildSys.init [] [1, 100]) ownerKilled = some s ∧
      s.spawned = 1 ∧ s.sys.evicted = [] ∧
      s.callers.map (fun c => c.pc)
        = [CallerPc.returned ExecResult.timeout 1,
            CallerPc.returned ExecResult.failure 1]) := by
  refine ⟨⟨_, rfl, by decide, by decide, by decide⟩, ⟨_, rfl, by decide, by decide⟩,
    ⟨_, rfl, by decide, by decide, by decide⟩, ⟨_, rfl, by decide, by decide, by decide⟩,
    ⟨_, rfl, by decide, by decide, by decide⟩⟩

/-- C3, amended: single-flight.  For every N and every (source, toolchain) pair, in every
interleaving of N concurrent calls of `Execute` with that input, of the janitor and of the
builds of other fingerprints, in which the janitor does not evict the entry of the
fingerprint: the calls are the same N calls with their deadlines; at most one child process
is invoked; none when the fingerprint has an entry when the calls begin; when it has none
and N >= 1, once all N calls have returned exactly one child process was invoked, or none
and the deadline of the reservation owner expired while it queued for a build slot; all
the callers that return before their own deadline receive the same result; a caller
receives `Timeout` exactly when it returns at or after its own deadline; a caller that
still waits at or after its deadline is not woken with the result, and its wait ends with
`Timeout`; and when the fingerprint has no entry, a build slot exists and every deadline
lies in the future, the N >= 1 calls can all return the outcome of one child process,
without an eviction. -/
theorem single_flight (digest : String → String → String) (source toolchain : String)
    (o : Orchestrator) (st : ArtifactStore) (deadlines : List Nat)
    (acts : List BuildAction) (s : BuildSys)
    (hrun : buildRun o (digest source toolchain) (BuildSys.init st deadlines) acts = some s)
    (hkeep : ∀ e ∈ s.sys.evicted, e.fingerprint ≠ digest source toolchain) :
    s.callers.map Caller.deadline = deadlines ∧
    s.spawned ≤ 1 ∧
    (st.lookup (digest source toolchain) ≠ none → s.spawned = 0) ∧
    (st.lookup (digest source toolchain) = none → deadlines ≠ [] →
      (∀ c ∈ s.callers, c.hasReturned = true) →
      s.spawned = 1 ∨ (s.spawned = 0 ∧ s.starved = 1)) ∧
    (∀ c1 ∈ s.callers, ∀ c2 ∈ s.callers, ∀ (r1 r2 : ExecResult) (t1 t2 : Nat),
      c1.pc = CallerPc.returned r1 t1 → c2.pc = CallerPc.returned r2 t2 →
      t1 < c1.deadline → t2 < c2.deadline → r1 = r2) ∧
    (∀ c ∈ s.callers, ∀ (r : ExecResult) (t : Nat), c.pc = CallerPc.returned r t →
      (r = ExecResult.timeout ↔ c.deadline ≤ t)) ∧
    (∀ (i : Nat) (c : Caller), s.callers[i]? = some c → c.pc = CallerPc.waiting →
      c.deadline ≤ s.sys.now →
      buildStep o (digest source toolchain) s (BuildAction.awaitWake i) = none ∧
      ∃ s1, buildStep o (digest source toolchain) s (BuildAction.awaitTimeout i) = some s1 ∧
        s1.callers[i]? = some ⟨c.deadline, CallerPc.returned ExecResult.timeout s.sys.now⟩) ∧
    (st.lookup (digest source toolchain) = none → 0 < o.ceiling → deadlines ≠ [] →
      (∀ d ∈ deadlines, 0 < d) → ∀ (log : BuildLog) (size : Nat),
      ∃ s2, buildRun o (digest source toolchain) (BuildSys.init st deadlines)
          (completeSchedule deadlines.length log size) = some s2 ∧
        s2.spawned = 1 ∧ s2.sys.evicted = [] ∧
        s2.callers = deadlines.map
          (fun d => ⟨d, CallerPc.returned (resultOf (o.classify log) log) 0⟩)) := by
  have hi : BuildInv o (digest source toolchain) (st.lookup (digest source toolchain)).isNone s :=
    BuildInv.of_run acts (BuildInv.of_init o _ st deadlines) hrun hkeep
  unfold BuildInv at hi
  have hdl : s.callers.map Caller.deadline = deadlines := by
    rw [buildRun_deadlines acts hrun]
    simp [BuildSys.init, Function.comp_def]
  refine ⟨hdl, hi.spawned_le.1, ?_, ?_, ?_, ?_, ?_, ?_⟩
  · intro hl
    apply hi.spawned_le.2
    cases h : st.lookup (digest source toolchain) with
    | none => exact absurd h hl
    | some e => rfl
  · intro hl hne hall
    rw [hl] at hi
    have hsum := InvCore.spawned_eq hi (by
      intro hnil
      rw [hnil] at hdl
      exact hne hdl.symm) hall
    have hle := hi.spawned_le.1
    omega
  · intro c1 hc1 c2 hc2 r1 r2 t1 t2 h1 h2 hlt1 hlt2
    rcases hi.returned_eq c1 hc1 r1 t1 h1 with ⟨_, h⟩ | ⟨e1, he1, hr1, _⟩
    · omega
    · rcases hi.returned_eq c2 hc2 r2 t2 h2 with ⟨_, h⟩ | ⟨e2, he2, hr2, _⟩
      · omega
      · rw [he1] at he2
        injection he2 with he2
        rw [hr1, hr2, he2]
  · intro c hc r t hr
    rcases hi.returned_eq c hc r t hr with ⟨h1, h2⟩ | ⟨e, _, hre, hlt⟩
    · exact ⟨fun _ => h2, fun _ => h1⟩
    · constructor
      · intro h
        rw [hre] at h
        exact absurd h (cachedResult_ne_timeout o e)
      · intro h
        omega
  · intro i c hc hpc hdl
    constructor
    · simp only [buildStep, hc]
      cases s.sys.store.lookup (digest source toolchain) with
      | none => rfl
      | some e =>
        simp only
        rw [if_neg]
        intro hg
        omega
    · refine ⟨s.advance (Release s.sys.store (digest source toolchain)) i c
        (CallerPc.returned ExecResult.timeout s.sys.now), ?_, ?_⟩
      · simp only [buildStep, hc]
        rw [if_pos ⟨hpc, hdl⟩]
      · exact getElem?_set_of_some hc
  · intro hl hceil hne hpos log size
    cases deadlines with
    | nil => exact absurd rfl hne
    | cons d0 rest =>
      exact buildRun_complete o _ st d0 rest log size hl hceil (hpos d0 (by simp))
        (fun d hd => hpos d (List.mem_cons_of_mem _ hd))

/-- Witness of C3, amended: three concurrent calls and a sweeping janitor, for a
fingerprint without an entry; no deadline expires and nothing is evicted: one child process
is spawned, and the three callers receive its result. -/
theorem single_flight_witness :
    buildRun exampleOrchestrator "f" (BuildSys.init [] [100, 100, 100]) threeCallers
      = some threeCallersEnd ∧
    (∀ e ∈ threeCallersEnd.sys.evicted, e.fingerprint ≠ "f") ∧
    threeCallersEnd.spawned ≤ 1 ∧
    (threeCallersEnd.spawned = 1 ∨
      (threeCallersEnd.spawned = 0 ∧ threeCallersEnd.starved = 1)) ∧
    threeCallersEnd.callers.map (fun c => c.pc)
      = [CallerPc.returned (ExecResult.result exampleLog) 1,
          CallerPc.returned (ExecResult.result exampleLog) 1,
          CallerPc.returned (ExecResult.result exampleLog) 1] :=
  ⟨by decide, by decide,
    (single_flight (fun _ _ => "f") "package main" "stable" exampleOrchestrator []
      [100, 100, 100] threeCallers threeCallersEnd (by decide) (by decide)).2.1,
    (single_flight (fun _ _ => "f") "package main" "stable" exampleOrchestrator []
      [100, 100, 100] threeCallers threeCallersEnd (by decide) (by decide)).2.2.2.1
      (by decide) (by decide) (by decide),
    by decide⟩

end GoPlayground
